import Mathlib

/-!
Verification development for telicent-lib: a shallow embedding of the
record-header algebra (`telicent_lib/records.py`), the security-label
builder (`telicent_lib/access/security_labels.py`), the Kafka sink's
header normalization (`telicent_lib/sinks/kafkaSink.py`), the Action
lifecycle (`telicent_lib/action.py`), the Mapper per-record engine loop
(`telicent_lib/mapper.py`) and the Kafka source seek state machine
(`telicent_lib/sources/kafkaSource.py`), together with theorems settling
the specification's claims about them.

Modelling conventions:
* Python `bytes` values that appear in header positions are always
  produced by UTF-8 encoding a string (in the code paths in scope), so a
  bytes object is represented by the string it decodes to (`HVal.vbytes`).
* A Python `dict` header value is represented by its `json.dumps`
  rendering (`HVal.vdict`): the only operations applied to one are
  JSON-encode-then-UTF-8 (in `RecordUtils.__encode_header_value`) and
  raising `TypeError` (in `__decode_header_value__` and `KafkaSink.send`).
* Raised exceptions are modelled with `Except`/`Option` results.
* `str.casefold` agrees with `toLower` on the ASCII header keys in scope.
-/

/-- Python header values: `None`, `str`, `bytes` (identified with their
UTF-8 decoding) and `dict` (identified with its JSON rendering). -/
inductive HVal where
  | vnone : HVal
  | vstr (s : String) : HVal
  | vbytes (s : String) : HVal
  | vdict (json : String) : HVal
  deriving DecidableEq, Repr

/-- A record header entry: `(key, value)` as in `Record.headers`. -/
abbrev Header := String × HVal

/-- Models Python `str.casefold()` (agrees with lower-casing on the ASCII
header keys used throughout the library). -/
def pyCasefold (s : String) : String := ⟨s.data.map Char.toLower⟩

/-- Models Python `str.strip()`: leading and trailing whitespace
removed. -/
def pyStrip (s : String) : String :=
  ⟨((s.data.dropWhile Char.isWhitespace).reverse.dropWhile Char.isWhitespace).reverse⟩

/-- `Record` namedtuple from `records.py`: headers (a list, or `None`),
key, value and raw handle.  Key/value/raw are opaque payloads; we give
them type `HVal` merely to keep decidable equality. -/
structure Record where
  headers : Option (List Header)
  key : HVal
  value : HVal
  raw : HVal
  deriving DecidableEq, Repr

namespace RecordUtils

/-- `RecordUtils.__decode_header_value__`: `None` passes through, `str`
passes through, `bytes` are UTF-8 decoded, anything else (a dict) raises
`TypeError` (modelled as `Except.error`). -/
def __decode_header_value__ : HVal → Except Unit (Option String)
  | .vnone => .ok none
  | .vstr s => .ok (some s)
  | .vbytes s => .ok (some s)
  | .vdict _ => .error ()

/-- `RecordUtils.__encode_header_value`: `None` passes through, `bytes`
pass through, a dict is JSON-encoded then UTF-8 encoded, a `str` is UTF-8
encoded. -/
def __encode_header_value : HVal → HVal
  | .vnone => .vnone
  | .vbytes b => .vbytes b
  | .vdict j => .vbytes j
  | .vstr s => .vbytes s

/-- The header-scanning loop shared by `get_first_header` (first entry
whose casefolded key equals the casefolded target, decoded). -/
def get_first_header_aux : List Header → String → Except Unit (Option String)
  | [], _ => .ok none
  | (k, v) :: rest, h =>
    if pyCasefold k = h then __decode_header_value__ v
    else get_first_header_aux rest h

/-- `RecordUtils.get_first_header`. -/
def get_first_header (record : Record) (header : String) : Except Unit (Option String) :=
  match record.headers with
  | none => .ok none
  | some hs => get_first_header_aux hs (pyCasefold header)

/-- The generator loop of `get_headers`: decoded values of all entries
whose casefolded key matches, in order; a non-str/bytes value raises. -/
def get_headers_aux : List Header → String → Except Unit (List (Option String))
  | [], _ => .ok []
  | (k, v) :: rest, h =>
    if pyCasefold k = h then
      match __decode_header_value__ v with
      | .error e => .error e
      | .ok d =>
        match get_headers_aux rest h with
        | .error e => .error e
        | .ok ds => .ok (d :: ds)
    else get_headers_aux rest h

/-- `RecordUtils.get_headers`. -/
def get_headers (record : Record) (header : String) : Except Unit (List (Option String)) :=
  match record.headers with
  | none => .ok []
  | some hs => get_headers_aux hs (pyCasefold header)

/-- `RecordUtils.get_last_header`: last element of `get_headers`, with
the `IndexError` on an empty list caught and turned into `None`. -/
def get_last_header (record : Record) (header : String) : Except Unit (Option String) :=
  match get_headers record header with
  | .error e => .error e
  | .ok vs => .ok (vs.getLast?.getD none)

/-- `RecordUtils.has_header`: case-insensitive key membership. -/
def has_header (record : Record) (header : String) : Bool :=
  match record.headers with
  | none => false
  | some hs => hs.any (fun kv => pyCasefold kv.1 = pyCasefold header)

/-- `RecordUtils.add_header`: copy the existing headers (an absent
`headers` field contributes the empty list) and append the new entry with
its value encoded; returns a new record. -/
def add_header (record : Record) (header : String) (value : HVal) : Record :=
  { record with
      headers := some ((record.headers.getD []) ++ [(header, __encode_header_value value)]) }

/-- `RecordUtils.add_headers`: with an empty list the record is returned
unchanged, otherwise the new entries are appended with encoded values. -/
def add_headers (record : Record) (headers : List Header) : Record :=
  if headers.length = 0 then record
  else
    { record with
        headers := some ((record.headers.getD []) ++
          headers.map (fun kv => (kv.1, __encode_header_value kv.2))) }

/-- The replacement loop of `replace_or_add_header`: replace the value of
the first entry whose casefolded key matches (keeping that entry's stored
key), or report that no entry matched. -/
def replace_first_aux (h : String) (value : HVal) : List Header → Option (List Header)
  | [] => none
  | (k, v) :: rest =>
    if pyCasefold k = h then some ((k, value) :: rest)
    else (replace_first_aux h value rest).map (fun l => (k, v) :: l)

/-- `RecordUtils.replace_or_add_header`: the supplied key is casefolded
up front; the first match is replaced in the copy, otherwise the
(casefolded) key is appended with the raw value. -/
def replace_or_add_header (record : Record) (header : String) (value : HVal) : Record :=
  let h := pyCasefold header
  let base := record.headers.getD []
  match replace_first_aux h value base with
  | some l => { record with headers := some l }
  | none => { record with headers := some (base ++ [(h, value)]) }

/-- `RecordUtils.remove_header`: keep entries whose key does not match
case-insensitively, or—when a value filter is given—entries whose value
differs exactly from the filter. -/
def remove_header (record : Record) (header : String) (value : Option HVal) : Record :=
  match record.headers with
  | none => record
  | some hs =>
    let h := pyCasefold header
    { record with
        headers := some (hs.filter (fun kv =>
          pyCasefold kv.1 ≠ h || (match value with
            | some v => decide (v ≠ kv.2)
            | none => false))) }

/-- The header keys stored in a record, in order. -/
def headerKeys (record : Record) : List String :=
  (record.headers.getD []).map Prod.fst

end RecordUtils

namespace SecurityLabels

/-- `Label` from `security_labels.py`: a name plus a (documentation-only)
label type. -/
structure Label where
  name : String
  label_type : String
  deriving DecidableEq, Repr

/-- `Label.create_label`: renders `name=value`. -/
def create_label (l : Label) (value : String) : String :=
  l.name ++ "=" ++ value

/-- `MultiValueLabel.construct`: per-value labels joined with `|` and
wrapped in parentheses. -/
def MultiValueLabel.construct (l : Label) (values : List String) : String :=
  "(" ++ String.intercalate "|" (values.map (create_label l)) ++ ")"

/-- `SingleValueLabel.construct`: exactly one value; more than one raises
`ValueError` and zero raises `IndexError` (both modelled as errors). -/
def SingleValueLabel.construct (l : Label) (values : List String) : Except Unit String :=
  if values.length > 1 then .error ()
  else
    match values with
    | [] => .error ()
    | v :: _ => .ok (create_label l v)

/-- Builder state of `SecurityLabelBuilder`: rendered AND-group
expressions, raw OR-expressions and the names already used. -/
structure SecurityLabelBuilder where
  labels : List String
  or_expressions : List String
  used_labels : List String
  deriving DecidableEq, Repr

/-- A freshly constructed `SecurityLabelBuilder()`. -/
def SecurityLabelBuilder.mk0 : SecurityLabelBuilder := ⟨[], [], []⟩

/-- Name bookkeeping shared by `add`/`add_multiple` (the duplicate-name
warning is print-only and not modelled). -/
def SecurityLabelBuilder.noteUsed (b : SecurityLabelBuilder) (name : String) :
    List String :=
  if name ∈ b.used_labels then b.used_labels else b.used_labels ++ [name]

/-- `SecurityLabelBuilder.add`: renders the label via its construction
rule with the single value (`SingleValueLabel.construct` with one value
reduces to `create_label`) and appends it to the AND-group. -/
def SecurityLabelBuilder.add (b : SecurityLabelBuilder) (label : Label) (value : String) :
    SecurityLabelBuilder :=
  { b with labels := b.labels ++ [create_label label value],
           used_labels := b.noteUsed label.name }

/-- `SecurityLabelBuilder.add_multiple`: renders via
`MultiValueLabel.construct` and appends to the AND-group. -/
def SecurityLabelBuilder.add_multiple (b : SecurityLabelBuilder) (label : Label)
    (values : List String) : SecurityLabelBuilder :=
  { b with labels := b.labels ++ [MultiValueLabel.construct label values],
           used_labels := b.noteUsed label.name }

/-- `SecurityLabelBuilder.build`. -/
def SecurityLabelBuilder.build (b : SecurityLabelBuilder) : String :=
  let expression := String.intercalate "&" b.labels
  let close_expression := if b.or_expressions.length = 0 then ")" else ")|"
  let base_expression :=
    if (pyStrip expression).length = 0 then ""
    else "(" ++ expression ++ close_expression
  let ors := String.intercalate "|" b.or_expressions
  base_expression ++ ors

end SecurityLabels

/-!
Aliasing model.  Python header lists are mutable heap objects shared by
reference; `RecordUtils` functions always build fresh lists while
`KafkaSink.send` assigns into the caller's list.  To settle the
immutability and frame-effect claims we re-embed exactly the operations
those claims are about over an explicit store of list cells.
-/

/-- A store of header-list cells; a record's `headers` field holds an
index into it (Python object references). -/
structure Store where
  cells : List (List Header)
  deriving DecidableEq, Repr

/-- Dereference a cell (out-of-range reads, which cannot arise for
well-formed references, return the empty list). -/
def Store.read (st : Store) (ref : Nat) : List Header :=
  (st.cells[ref]?).getD []

/-- Allocate a fresh cell, returning the new store and the new
reference. -/
def Store.alloc (st : Store) (xs : List Header) : Store × Nat :=
  (⟨st.cells ++ [xs]⟩, st.cells.length)

/-- Overwrite an existing cell in place. -/
def Store.write (st : Store) (ref : Nat) (xs : List Header) : Store :=
  ⟨st.cells.set ref xs⟩

/-- A `Record` whose headers field is a reference into the store (or
`None`); the other namedtuple fields are immutable values. -/
structure RecordR where
  headers : Option Nat
  key : HVal
  value : HVal
  raw : HVal
  deriving DecidableEq, Repr

/-- The header list a store-level record refers to. -/
def RecordR.headerList (st : Store) (r : RecordR) : List Header :=
  match r.headers with
  | none => []
  | some ref => st.read ref

namespace RecordUtils

/-- Store-level `RecordUtils.add_header`: reads the argument's list,
builds a fresh list (`new_headers = []` plus copied entries plus the
encoded new entry), allocates it and returns a new record referring to
it.  The source contains no assignment into the argument or its list. -/
def add_headerH (st : Store) (r : RecordR) (header : String) (value : HVal) :
    Store × RecordR :=
  let base := r.headerList st
  let (st2, ref2) := st.alloc (base ++ [(header, __encode_header_value value)])
  (st2, { r with headers := some ref2 })

/-- Store-level `RecordUtils.get_first_header` (read-only). -/
def get_first_headerH (st : Store) (r : RecordR) (header : String) :
    Except Unit (Option String) :=
  match r.headers with
  | none => .ok none
  | some ref => get_first_header_aux (st.read ref) (pyCasefold header)

end RecordUtils

namespace KafkaSink

/-- The header-normalization loop of `KafkaSink.send` (`for i, header in
enumerate(record.headers)`): `bytes` values are left as they are, `str`
values are replaced in place by their UTF-8 encoding, any other value
raises `TypeError` leaving the entries already visited mutated.  Returns
the list as left in the cell and `some ()` when the loop raised. -/
def sendNormalize : List Header → List Header × Option Unit
  | [] => ([], none)
  | (k, v) :: rest =>
    match v with
    | .vbytes b =>
      let (r, e) := sendNormalize rest
      ((k, .vbytes b) :: r, e)
    | .vstr s =>
      let (r, e) := sendNormalize rest
      ((k, .vbytes s) :: r, e)
    | .vnone => ((k, .vnone) :: rest, some ())
    | .vdict j => ((k, .vdict j) :: rest, some ())

/-- Store-level `KafkaSink.send`, up to the hand-off to the underlying
producer: normalizes the caller's header list **in place** (writing the
cell back through the record's reference); key/value serialization and
the produce/backpressure loop concern the transport and are out of
scope.  The second component is `some ()` when `send` raised
`TypeError`. -/
def sendH (st : Store) (r : RecordR) : Store × Option Unit :=
  match r.headers with
  | none => (st, none)
  | some ref =>
    let (hs, e) := sendNormalize (st.read ref)
    (st.write ref hs, e)

/-- The value-level encoding `send` applies to a `str`-or-`bytes` header
value (strs UTF-8 encoded, bytes unchanged). -/
def sinkEncode : HVal → HVal
  | .vstr s => .vbytes s
  | v => v

/-- A header value `send` accepts without raising. -/
def strOrBytes : HVal → Bool
  | .vstr _ => true
  | .vbytes _ => true
  | _ => false

end KafkaSink

namespace ActionM

/-- The mutable session state of `Action` that the lifecycle methods
touch (metrics/OpenTelemetry wiring is excluded by the spec's scope). -/
structure ActionState where
  reporting_batch_size : Nat
  counter : Nat
  read_counter : Nat
  output_counter : Nat
  expected : Nat
  error_count : Nat
  last_report_at : Nat
  next_batch_boundary : Nat
  batch_timer : Option Nat
  total_timer : Option Nat
  hasReporter : Bool
  hasErrorHandler : Bool
  deriving DecidableEq, Repr

/-- Observable effects of the lifecycle methods. -/
inductive ActionEv where
  | reported (counterValue : Nat) : ActionEv
  | heartbeatStopped : ActionEv
  | errorHandlerClosed : ActionEv
  deriving DecidableEq, Repr

/-- `Action.report_progress`: a no-op when already reported at this
counter value, otherwise emits a progress line, records the report point,
advances the next batch boundary and restarts the batch timer (`now`
stands for `time.perf_counter()`). -/
def report_progress (now : Nat) (s : ActionState) : ActionState × List ActionEv :=
  if s.last_report_at = s.counter then (s, [])
  else
    ({ s with last_report_at := s.counter,
              next_batch_boundary := s.next_batch_boundary + s.reporting_batch_size,
              batch_timer := some now },
     [.reported s.counter])

/-- `Action.__reset_counters__`. -/
def __reset_counters__ (s : ActionState) : ActionState :=
  { s with expected := 0, counter := 0, error_count := 0,
           total_timer := none, batch_timer := none,
           next_batch_boundary := s.reporting_batch_size }

/-- `Action.finished`: raises when not started (`batch_timer` unset) or
when `counter % reporting_batch_size` divides by zero; otherwise reports
the final partial batch if any, prints the summary, resets the counters
and—when a reporter is configured—stops its heartbeat.  The error
handler is not touched. -/
def finished (now : Nat) (s : ActionState) : Option (ActionState × List ActionEv) :=
  match s.batch_timer with
  | none => none
  | some _ =>
    if s.reporting_batch_size = 0 then none
    else
      let (s1, ev1) :=
        if s.counter % s.reporting_batch_size ≠ 0 then report_progress now s else (s, [])
      let s2 := __reset_counters__ s1
      let ev2 := if s.hasReporter then [ActionEv.heartbeatStopped] else []
      some (s2, ev1 ++ ev2)

/-- `Action.aborted`: reports the final partial batch if any, prints the
abort summary, stops the reporter's heartbeat when configured and closes
the error handler when configured.  The counters are not reset. -/
def aborted (now : Nat) (s : ActionState) : Option (ActionState × List ActionEv) :=
  if s.reporting_batch_size = 0 then none
  else
    let (s1, ev1) :=
      if s.counter % s.reporting_batch_size ≠ 0 then report_progress now s else (s, [])
    let ev2 := if s.hasReporter then [ActionEv.heartbeatStopped] else []
    let ev3 := if s.hasErrorHandler then [ActionEv.errorHandlerClosed] else []
    some (s1, ev1 ++ ev2 ++ ev3)

end ActionM

namespace MapperM

open RecordUtils

/-- The configuration the Mapper loop body reads: the target sink's name
(used in the generated request id), the action's generated id (the
`Exec-Path` value), the `DISABLE_PERSISTENT_HEADERS` configuration value
(default `"0"`) and whether a DLQ target has been set. -/
structure MapperConfig where
  sink_name : String
  generated_id : String
  disable_persistent_headers : String
  dlq_configured : Bool
  deriving DecidableEq, Repr

/-- The outcome of invoking the caller's map function on one record:
a normal return (`None`, a single record, or a list), the `DLQException`
signal, or any other exception. -/
inductive MapOutcome where
  | result (out : Option (Record ⊕ List Record)) : MapOutcome
  | dlqException (msg : String) : MapOutcome
  | exception (msg : String) : MapOutcome
  deriving DecidableEq, Repr

/-- What one iteration of `Mapper.run`'s loop produced: records sent to
the target sink, records sent to the DLQ sink, and the counter
increments (`record_read`/`record_processed`/`record_output`). -/
structure StepOutput where
  sent : List Record
  dlq_sent : List Record
  read_delta : Nat
  processed_delta : Nat
  output_delta : Nat
  deriving DecidableEq, Repr

/-- Ways one iteration aborts the run: `send_dlq_record` raising
`RuntimeError` because no DLQ target is set, a non-DLQ exception escaping
the map function (reported and re-raised), or a `TypeError` from decoding
a malformed header value. -/
inductive StepError where
  | dlqTargetUnset : StepError
  | mapException (msg : String) : StepError
  | headerDecodeError : StepError
  deriving DecidableEq, Repr

/-- `Action.send_dlq_record` with a DLQ target set: the record gains a
`Dead-Letter-Reason` header carrying the reason and goes to the DLQ
sink. -/
def send_dlq_record (record : Record) (dlq_reason : String) : Record :=
  add_headers record [("Dead-Letter-Reason", .vstr dlq_reason)]

/-- The decoded header value (`str | None`) as it is re-used when
building new headers. -/
def optStrToHVal : Option String → HVal
  | some s => .vstr s
  | none => .vnone

/-- One iteration of the `Mapper.run` loop (mapper.py lines 120-187) for
a given input record and map-function outcome.  `uuid4` stands for the
generated `uuid.uuid4()` string — generated once per input record — and
`traceparent` for the injected trace carrier value (the OpenTelemetry
wiring itself is excluded by the spec's scope). -/
def process_record (cfg : MapperConfig) (uuid4 traceparent : String)
    (record : Record) (outcome : MapOutcome) : Except StepError StepOutput :=
  -- self.record_read()
  match outcome with
  | .dlqException msg =>
    -- except DLQException: send to DLQ, count as processed, continue
    if cfg.dlq_configured then
      .ok { sent := [], dlq_sent := [send_dlq_record record msg],
            read_delta := 1, processed_delta := 1, output_delta := 0 }
    else .error .dlqTargetUnset
  | .exception msg => .error (.mapException msg)
  | .result out =>
    -- self.record_processed()
    match out with
    | none =>
      .ok { sent := [], dlq_sent := [], read_delta := 1, processed_delta := 1,
            output_delta := 0 }
    | some od =>
      -- prepare headers: propagate the input's last Request-Id (if any),
      -- then Request-Id / Exec-Path / traceparent
      match get_headers record "Request-Id" with
      | .error _ => .error .headerDecodeError
      | .ok reqIds =>
        let output_headers : List Header :=
          (match reqIds.getLast? with
           | some v => [("Input-Request-Id", optStrToHVal v)]
           | none => []) ++
          [("Request-Id", .vstr (cfg.sink_name ++ ":" ++ uuid4)),
           ("Exec-Path", .vstr cfg.generated_id),
           ("traceparent", .vstr traceparent)]
        match od with
        | .inr outs =>
          -- list branch: send each record with the shared output headers
          .ok { sent := outs.map (fun r => add_headers r output_headers),
                dlq_sent := [], read_delta := 1, processed_delta := 1,
                output_delta := 1 }
        | .inl single =>
          let output_data := add_headers single output_headers
          if cfg.disable_persistent_headers ≠ "1" ∧
              ¬ has_header output_data "Security-Label" ∧
              has_header record "Security-Label" then
            match get_headers record "Security-Label" with
            | .error _ => .error .headerDecodeError
            | .ok labelValues =>
              .ok { sent := [labelValues.foldl
                      (fun r v => add_header r "Security-Label" (optStrToHVal v))
                      output_data],
                    dlq_sent := [], read_delta := 1, processed_delta := 1,
                    output_delta := 1 }
          else
            .ok { sent := [output_data], dlq_sent := [], read_delta := 1,
                  processed_delta := 1, output_delta := 1 }

end MapperM

namespace KafkaSourceM

/-- A partition of the source's single topic, identified by its id. -/
abbrev Partition := Nat

/-- The special seek offsets used by `__seek_to_beginning__` /
`__seek_to_end__`. -/
inductive SeekOffset where
  | OFFSET_BEGINNING : SeekOffset
  | OFFSET_END : SeekOffset
  deriving DecidableEq, Repr

/-- A record-level error reported by `Message.error()`. -/
inductive KafkaErr where
  | unknownTopicOrPart : KafkaErr
  | otherErr (s : String) : KafkaErr
  deriving DecidableEq, Repr

/-- A message as returned by `Consumer.poll`. -/
structure Msg where
  partition : Partition
  offset : Nat
  error : Option KafkaErr
  deriving DecidableEq, Repr

/-- A rebalance callback delivered during a `poll` call: `on_assign`
with the (eager-protocol) new assignment, or `on_revoke` with the
partitions taken away. -/
inductive RebalanceEvent where
  | assign (ps : List Partition) : RebalanceEvent
  | revoke (ps : List Partition) : RebalanceEvent
  deriving DecidableEq, Repr

/-- What the broker environment does during one `Consumer.poll` call:
fires zero or more rebalance callbacks and then returns a message or
`None` (timeout). -/
structure PollResult where
  events : List RebalanceEvent
  msg : Option Msg
  deriving DecidableEq, Repr

/-- The `KafkaSource` state the seek protocol touches, plus the script
of pending broker poll behaviours (the environment). -/
structure SourceState where
  reset_position : String
  commit_interval : Nat
  needs_seek : Bool
  assignment : List Partition
  already_seeked : List Partition
  records_seen : Nat
  script : List PollResult
  deriving DecidableEq, Repr

/-- Observable consumer interactions emitted by the read loop. -/
inductive Ev where
  | polled : Ev
  | seeked (p : Partition) (target : SeekOffset) : Ev
  | committedSeek (p : Partition) : Ev
  | committedPositions : Ev
  deriving DecidableEq, Repr

/-- Effect of one rebalance callback: `on_partitions_assigned` records
the new assignment and sets `needs_seek` (the partitions argument is
never `None`, so the flag becomes true); `on_partitions_revoked` commits
current read positions (`already_seeked` is not touched by either). -/
def applyEvent (s : SourceState) : RebalanceEvent → SourceState
  | .assign ps => { s with assignment := ps, needs_seek := true }
  | .revoke ps => { s with assignment := s.assignment.filter (fun p => ¬ ps.contains p) }

/-- `Consumer.poll(timeout=1.0)`: consumes the next scripted behaviour,
running its rebalance callbacks; an exhausted script behaves as a
timeout returning `None`. -/
def poll (s : SourceState) : Option Msg × SourceState × List Ev :=
  match s.script with
  | [] => (none, s, [Ev.polled])
  | pr :: rest =>
    (pr.msg, pr.events.foldl applyEvent { s with script := rest }, [Ev.polled])

/-- The partition loop shared by `__seek_to_beginning__` and
`__seek_to_end__`: skip partitions already seeked, otherwise seek to the
target offset, commit that offset and remember the partition.  Returns
the updated already-seeked list and the emitted events. -/
def seekPartitions (target : SeekOffset) :
    List Partition → List Partition → List Partition × List Ev
  | [], seeked => (seeked, [])
  | p :: ps, seeked =>
    if p ∈ seeked then seekPartitions target ps seeked
    else
      let (seeked', evs) := seekPartitions target ps (seeked ++ [p])
      (seeked', [Ev.seeked p target, Ev.committedSeek p] ++ evs)

/-- `KafkaSource.__seek_to_beginning__`. -/
def __seek_to_beginning__ (s : SourceState) : SourceState × List Ev :=
  let (seeked', evs) := seekPartitions .OFFSET_BEGINNING s.assignment s.already_seeked
  ({ s with already_seeked := seeked' }, evs)

/-- `KafkaSource.__seek_to_end__`. -/
def __seek_to_end__ (s : SourceState) : SourceState × List Ev :=
  let (seeked', evs) := seekPartitions .OFFSET_END s.assignment s.already_seeked
  ({ s with already_seeked := seeked' }, evs)

/-- One iteration of the `while True` loop in `KafkaSource.__next__`:
poll unless a seek is pending; if the `needs_seek` flag is (now) set,
seek per the configured reset policy and poll again (discarding any
record the first poll returned), or — for any other policy value — just
clear the flag and keep the first poll's record. -/
def nextIter (s : SourceState) : Option Msg × SourceState × List Ev :=
  let (rec0, s1, ev1) :=
    if ¬ s.needs_seek then poll s else (none, s, [])
  if s1.needs_seek then
    if s1.reset_position = "beginning" then
      let (s2, evA) := __seek_to_beginning__ s1
      let (rec1, s3, evB) := poll s2
      (rec1, { s3 with needs_seek := false }, ev1 ++ evA ++ evB)
    else if s1.reset_position = "end" then
      let (s2, evA) := __seek_to_end__ s1
      let (rec1, s3, evB) := poll s2
      (rec1, { s3 with needs_seek := false }, ev1 ++ evA ++ evB)
    else
      (rec0, { s1 with needs_seek := false }, ev1)
  else
    (rec0, s1, ev1)

/-- Result of a `__next__` call. -/
inductive NextResult where
  | record (m : Msg) : NextResult
  | sourceNotFound : NextResult
  | runtimeError (e : String) : NextResult
  | fuelExhausted : NextResult
  deriving DecidableEq, Repr

/-- `KafkaSource.__next__`: iterate `nextIter` until a message arrives,
then surface record-level errors (`UNKNOWN_TOPIC_OR_PART` as the
source-not-found failure, anything else as a fatal error) or count the
record and commit every `commit_interval` records before returning it.
The fuel bounds the number of loop iterations considered (each
iteration consumes scripted poll behaviours). -/
def next : Nat → SourceState → NextResult × SourceState × List Ev
  | 0, s => (.fuelExhausted, s, [])
  | fuel + 1, s =>
    let (rec1, s2, ev) := nextIter s
    match rec1 with
    | none =>
      let (res, s3, ev3) := next fuel s2
      (res, s3, ev ++ ev3)
    | some m =>
      match m.error with
      | some .unknownTopicOrPart => (.sourceNotFound, s2, ev)
      | some (.otherErr e) => (.runtimeError e, s2, ev)
      | none =>
        let s3 := { s2 with records_seen := s2.records_seen + 1 }
        if s3.records_seen % s3.commit_interval = 0 then
          (.record m, s3, ev ++ [Ev.committedPositions])
        else
          (.record m, s3, ev)

end KafkaSourceM

/-! Auxiliary lemmas about the embedded operations. -/

/-- Whether a header value is a dict (the one shape the decoding
functions reject). -/
def isDict : HVal → Bool
  | .vdict _ => true
  | _ => false

/-- A record none of whose header values is a dict; every lookup on such
a record decodes without raising. -/
def noDictHeaders (r : Record) : Bool :=
  (r.headers.getD []).all (fun kv => ¬ isDict kv.2)

namespace RecordUtils

/-- The decoded form of an encoded header value. -/
def encDec : HVal → Option String
  | .vnone => none
  | .vstr s => some s
  | .vbytes b => some b
  | .vdict j => some j

theorem decode_encode (v : HVal) :
    __decode_header_value__ (__encode_header_value v) = .ok (encDec v) := by
  cases v <;> rfl

theorem get_headers_eq_aux (r : Record) (k : String) :
    get_headers r k = get_headers_aux (r.headers.getD []) (pyCasefold k) := by
  cases h : r.headers <;> simp [get_headers, h, get_headers_aux]

theorem get_first_header_eq_aux (r : Record) (k : String) :
    get_first_header r k = get_first_header_aux (r.headers.getD []) (pyCasefold k) := by
  cases h : r.headers <;> simp [get_first_header, h, get_first_header_aux]

theorem has_header_eq_any (r : Record) (k : String) :
    has_header r k = (r.headers.getD []).any (fun kv => pyCasefold kv.1 = pyCasefold k) := by
  cases h : r.headers <;> simp [has_header, h]

theorem get_headers_aux_append {xs ys : List Header} {h : String} {vs ws : List (Option String)}
    (hx : get_headers_aux xs h = .ok vs) (hy : get_headers_aux ys h = .ok ws) :
    get_headers_aux (xs ++ ys) h = .ok (vs ++ ws) := by
  induction xs generalizing vs with
  | nil =>
    simp only [get_headers_aux] at hx
    cases hx
    simpa using hy
  | cons kv rest ih =>
    obtain ⟨k, v⟩ := kv
    have hsplit : ((k, v) :: rest) ++ ys = (k, v) :: (rest ++ ys) := rfl
    rw [hsplit]
    by_cases hk : pyCasefold k = h
    · simp only [get_headers_aux, if_pos hk] at hx ⊢
      cases hd : __decode_header_value__ v with
      | error e => rw [hd] at hx; cases hx
      | ok d =>
        rw [hd] at hx
        cases ha : get_headers_aux rest h with
        | error e => rw [ha] at hx; cases hx
        | ok ds =>
          rw [ha] at hx
          cases hx
          rw [ih ha]
          rfl
    · simp only [get_headers_aux, if_neg hk] at hx ⊢
      exact ih hx

theorem get_headers_aux_skip {xs : List Header} {h : String}
    (hno : ∀ kv ∈ xs, pyCasefold kv.1 ≠ h) :
    get_headers_aux xs h = .ok [] := by
  induction xs with
  | nil => rfl
  | cons kv rest ih =>
    obtain ⟨k, v⟩ := kv
    have hk : pyCasefold k ≠ h := hno (k, v) (List.mem_cons_self _ _)
    simp only [get_headers_aux, if_neg hk]
    exact ih fun kv hm => hno kv (List.mem_cons_of_mem _ hm)

theorem get_headers_aux_ok_of_noDict {xs : List Header} (h : String)
    (hnd : ∀ kv ∈ xs, isDict kv.2 = false) :
    ∃ vs, get_headers_aux xs h = .ok vs := by
  induction xs with
  | nil => exact ⟨[], rfl⟩
  | cons kv rest ih =>
    obtain ⟨k, v⟩ := kv
    obtain ⟨vs, hvs⟩ := ih fun kv hm => hnd kv (List.mem_cons_of_mem _ hm)
    by_cases hk : pyCasefold k = h
    · have hv : isDict v = false := hnd (k, v) (List.mem_cons_self _ _)
      have hdec : ∃ d, __decode_header_value__ v = .ok d := by
        cases v with
        | vdict j => simp [isDict] at hv
        | vnone => exact ⟨none, rfl⟩
        | vstr s => exact ⟨some s, rfl⟩
        | vbytes b => exact ⟨some b, rfl⟩
      obtain ⟨d, hd⟩ := hdec
      exact ⟨d :: vs, by simp only [get_headers_aux, if_pos hk, hd, hvs]⟩
    · exact ⟨vs, by simp only [get_headers_aux, if_neg hk, hvs]⟩

theorem get_headers_ok_of_noDict (r : Record) (k : String)
    (hnd : noDictHeaders r = true) :
    ∃ vs, get_headers r k = .ok vs := by
  rw [get_headers_eq_aux]
  refine get_headers_aux_ok_of_noDict _ fun kv hm => ?_
  have := (List.all_eq_true.mp hnd) kv hm
  simpa using this

theorem get_first_header_aux_append_skip {xs : List Header} (ys : List Header) {h : String}
    (hno : ∀ kv ∈ xs, pyCasefold kv.1 ≠ h) :
    get_first_header_aux (xs ++ ys) h = get_first_header_aux ys h := by
  induction xs with
  | nil => rfl
  | cons kv rest ih =>
    obtain ⟨k, v⟩ := kv
    have hk : pyCasefold k ≠ h := hno (k, v) (List.mem_cons_self _ _)
    simp only [List.cons_append, get_first_header_aux, if_neg hk]
    exact ih fun kv hm => hno kv (List.mem_cons_of_mem _ hm)

theorem get_headers_add_header {r : Record} {k : String} (v : HVal)
    {acc : List (Option String)} (h : get_headers r k = .ok acc) :
    get_headers (add_header r k v) k = .ok (acc ++ [encDec v]) := by
  rw [get_headers_eq_aux] at h
  have hone : get_headers_aux [(k, __encode_header_value v)] (pyCasefold k) =
      .ok [encDec v] := by
    simp [get_headers_aux, decode_encode]
  rw [get_headers_eq_aux]
  simp only [add_header, Option.getD_some]
  exact get_headers_aux_append h hone

end RecordUtils

namespace MapperM

open RecordUtils

theorem encDec_optStrToHVal (v : Option String) : encDec (optStrToHVal v) = v := by
  cases v <;> rfl

theorem cf_request_id : pyCasefold "Request-Id" = "request-id" := by decide

theorem cf_input_request_id : pyCasefold "Input-Request-Id" = "input-request-id" := by decide

theorem cf_exec_path : pyCasefold "Exec-Path" = "exec-path" := by decide

theorem cf_traceparent : pyCasefold "traceparent" = "traceparent" := by decide

theorem cf_security_label : pyCasefold "Security-Label" = "security-label" := by decide

theorem aux_oh_with_request_id (v : Option String) (rid gid tp : String) :
    get_headers_aux ([("Input-Request-Id", optStrToHVal v), ("Request-Id", HVal.vstr rid),
        ("Exec-Path", HVal.vstr gid), ("traceparent", HVal.vstr tp)].map
        (fun kv => (kv.1, __encode_header_value kv.2))) "request-id" = .ok [some rid] := by
  cases v <;>
    simp [get_headers_aux, __encode_header_value, __decode_header_value__, optStrToHVal,
      cf_input_request_id, cf_request_id, cf_exec_path, cf_traceparent]

theorem aux_oh_without_request_id (rid gid tp : String) :
    get_headers_aux ([("Request-Id", HVal.vstr rid),
        ("Exec-Path", HVal.vstr gid), ("traceparent", HVal.vstr tp)].map
        (fun kv => (kv.1, __encode_header_value kv.2))) "request-id" = .ok [some rid] := by
  simp [get_headers_aux, __encode_header_value, __decode_header_value__,
    cf_request_id, cf_exec_path, cf_traceparent]

theorem aux_oh_with_input_request_id (v : Option String) (rid gid tp : String) :
    get_headers_aux ([("Input-Request-Id", optStrToHVal v), ("Request-Id", HVal.vstr rid),
        ("Exec-Path", HVal.vstr gid), ("traceparent", HVal.vstr tp)].map
        (fun kv => (kv.1, __encode_header_value kv.2))) "input-request-id" = .ok [v] := by
  cases v <;>
    simp [get_headers_aux, __encode_header_value, __decode_header_value__, optStrToHVal,
      cf_input_request_id, cf_request_id, cf_exec_path, cf_traceparent]

theorem oh_with_no_security_label (v : Option String) (rid gid tp : String) :
    ∀ kv ∈ [("Input-Request-Id", optStrToHVal v), ("Request-Id", HVal.vstr rid),
        ("Exec-Path", HVal.vstr gid), ("traceparent", HVal.vstr tp)].map
        (fun kv => (kv.1, __encode_header_value kv.2)),
      pyCasefold kv.1 ≠ "security-label" := by
  intro kv hm
  simp only [List.mem_map, List.mem_cons, List.not_mem_nil] at hm
  obtain ⟨kv0, hkv0, rfl⟩ := hm
  rcases hkv0 with h | h | h | h | h <;> first
    | (subst h; simp [cf_input_request_id, cf_request_id, cf_exec_path, cf_traceparent])
    | exact absurd h (by simp)

theorem oh_without_no_security_label (rid gid tp : String) :
    ∀ kv ∈ [("Request-Id", HVal.vstr rid),
        ("Exec-Path", HVal.vstr gid), ("traceparent", HVal.vstr tp)].map
        (fun kv => (kv.1, __encode_header_value kv.2)),
      pyCasefold kv.1 ≠ "security-label" := by
  intro kv hm
  simp only [List.mem_map, List.mem_cons, List.not_mem_nil] at hm
  obtain ⟨kv0, hkv0, rfl⟩ := hm
  rcases hkv0 with h | h | h | h <;> first
    | (subst h; simp [cf_request_id, cf_exec_path, cf_traceparent])
    | exact absurd h (by simp)

theorem get_last_header_add_headers_last {o : Record} {H : List Header} {k : String}
    {d : Option String}
    (hne : ¬ H.length = 0)
    (ho : ∃ vs, get_headers_aux (o.headers.getD []) (pyCasefold k) = .ok vs)
    (hH : get_headers_aux (H.map fun kv => (kv.1, __encode_header_value kv.2))
            (pyCasefold k) = .ok [d]) :
    get_last_header (add_headers o H) k = .ok d := by
  obtain ⟨vs, hvs⟩ := ho
  have hh : get_headers (add_headers o H) k = .ok (vs ++ [d]) := by
    rw [get_headers_eq_aux]
    simp only [add_headers, if_neg hne, Option.getD_some]
    exact get_headers_aux_append hvs hH
  simp [get_last_header, hh]

theorem any_eq_false_key {hs : List Header} {h : String}
    (ha : hs.any (fun kv => pyCasefold kv.1 = h) = false) :
    ∀ kv ∈ hs, pyCasefold kv.1 ≠ h := by
  intro kv hm
  have := List.any_eq_false.mp ha kv hm
  simpa using this

theorem get_headers_of_not_has {r : Record} {k : String}
    (h : has_header r k = false) :
    get_headers r k = .ok [] := by
  rw [get_headers_eq_aux]
  rw [has_header_eq_any] at h
  exact get_headers_aux_skip (any_eq_false_key h)

theorem has_header_add_headers_false {o : Record} {H : List Header} {k : String}
    (hne : ¬ H.length = 0)
    (ho : has_header o k = false)
    (hH : ∀ kv ∈ H.map fun kv => (kv.1, __encode_header_value kv.2),
            pyCasefold kv.1 ≠ pyCasefold k) :
    has_header (add_headers o H) k = false := by
  rw [has_header_eq_any] at ho ⊢
  simp only [add_headers, if_neg hne, Option.getD_some, List.any_append, ho,
    Bool.false_or, List.any_eq_false]
  intro kv hm
  simpa using hH kv hm

theorem get_headers_foldl_add {k : String} (vs : List (Option String)) (r0 : Record)
    {acc : List (Option String)} (h0 : get_headers r0 k = .ok acc) :
    get_headers (vs.foldl (fun r v => add_header r k (optStrToHVal v)) r0) k =
      .ok (acc ++ vs) := by
  induction vs generalizing r0 acc with
  | nil => simpa using h0
  | cons v rest ih =>
    have h1 := get_headers_add_header (optStrToHVal v) h0
    rw [encDec_optStrToHVal] at h1
    have h2 := ih _ h1
    simpa using h2

end MapperM

/-! Claim theorems. -/

/-- C2 counterexample: a map function returning a list of two records for
one input produces two sent records whose `Request-Id` headers are
**identical** (`out:u1` both times) — the request id is generated once
per input record, not freshly per sent record, so the sent records do not
each carry a unique request id. -/
theorem C2_counterexample :
    MapperM.process_record ⟨"out", "gid", "0", true⟩ "u1" "tp"
        ⟨some [("Request-Id", HVal.vbytes "prev")], .vnone, .vnone, .vnone⟩
        (.result (some (.inr [⟨some [], .vnone, .vnone, .vnone⟩,
                              ⟨some [], .vnone, .vnone, .vnone⟩]))) =
      .ok { sent := [⟨some [("Input-Request-Id", HVal.vbytes "prev"),
                           ("Request-Id", HVal.vbytes "out:u1"),
                           ("Exec-Path", HVal.vbytes "gid"),
                           ("traceparent", HVal.vbytes "tp")], .vnone, .vnone, .vnone⟩,
                     ⟨some [("Input-Request-Id", HVal.vbytes "prev"),
                           ("Request-Id", HVal.vbytes "out:u1"),
                           ("Exec-Path", HVal.vbytes "gid"),
                           ("traceparent", HVal.vbytes "tp")], .vnone, .vnone, .vnone⟩],
            dlq_sent := [], read_delta := 1, processed_delta := 1, output_delta := 1 } ∧
    RecordUtils.get_last_header
        ⟨some [("Input-Request-Id", HVal.vbytes "prev"),
               ("Request-Id", HVal.vbytes "out:u1"),
               ("Exec-Path", HVal.vbytes "gid"),
               ("traceparent", HVal.vbytes "tp")], .vnone, .vnone, .vnone⟩
        "Request-Id" = .ok (some "out:u1") := by
  constructor
  · rfl
  · rfl

/-- C2 (amended): when the map function returns a list of K records,
exactly K records are sent to the target sink; every sent record carries
the **same** `Request-Id` header value `<sink name>:<uuid>` — one id
generated per input record, shared by all K outputs rather than fresh per
output — and, when the input record has a `Request-Id` header, every sent
record carries an `Input-Request-Id` header equal to the input's last
`Request-Id` value. -/
theorem C2_amended_thm (cfg : MapperM.MapperConfig) (uuid4 tp : String) (record : Record)
    (outs : List Record) (reqIds : List (Option String))
    (hreq : RecordUtils.get_headers record "Request-Id" = .ok reqIds)
    (houts : ∀ o ∈ outs, noDictHeaders o = true) :
    ∃ out, MapperM.process_record cfg uuid4 tp record (.result (some (.inr outs))) = .ok out ∧
      out.sent.length = outs.length ∧
      (∀ r ∈ out.sent,
        RecordUtils.get_last_header r "Request-Id" =
          .ok (some (cfg.sink_name ++ ":" ++ uuid4))) ∧
      (∀ v, reqIds.getLast? = some v →
        ∀ r ∈ out.sent,
          RecordUtils.get_last_header r "Input-Request-Id" = .ok v) := by
  classical
  have hp : MapperM.process_record cfg uuid4 tp record (.result (some (.inr outs))) =
      .ok { sent := outs.map (fun r => RecordUtils.add_headers r
              ((match reqIds.getLast? with
                | some v => [("Input-Request-Id", MapperM.optStrToHVal v)]
                | none => []) ++
               [("Request-Id", .vstr (cfg.sink_name ++ ":" ++ uuid4)),
                ("Exec-Path", .vstr cfg.generated_id),
                ("traceparent", .vstr tp)])),
            dlq_sent := [], read_delta := 1, processed_delta := 1, output_delta := 1 } := by
    simp [MapperM.process_record, hreq]
  refine ⟨_, hp, ?_, ?_, ?_⟩
  · simp
  · intro r hr
    simp only [List.mem_map] at hr
    obtain ⟨o, ho, rfl⟩ := hr
    have hnd : noDictHeaders o = true := houts o ho
    have haux : ∃ vs, RecordUtils.get_headers_aux (o.headers.getD []) "request-id" = .ok vs :=
      RecordUtils.get_headers_aux_ok_of_noDict _ (fun kv hm => by
        have := (List.all_eq_true.mp hnd) kv hm
        simpa using this)
    cases hc : reqIds.getLast? with
    | some v =>
      simp only [hc]
      refine MapperM.get_last_header_add_headers_last (by simp) ?_ ?_
      · rw [MapperM.cf_request_id]; exact haux
      · rw [MapperM.cf_request_id]; exact MapperM.aux_oh_with_request_id v _ _ _
    | none =>
      simp only [hc]
      refine MapperM.get_last_header_add_headers_last (by simp) ?_ ?_
      · rw [MapperM.cf_request_id]; exact haux
      · rw [MapperM.cf_request_id]; exact MapperM.aux_oh_without_request_id _ _ _
  · intro v hv r hr
    simp only [List.mem_map] at hr
    obtain ⟨o, ho, rfl⟩ := hr
    have hnd : noDictHeaders o = true := houts o ho
    have haux : ∃ vs,
        RecordUtils.get_headers_aux (o.headers.getD []) "input-request-id" = .ok vs :=
      RecordUtils.get_headers_aux_ok_of_noDict _ (fun kv hm => by
        have := (List.all_eq_true.mp hnd) kv hm
        simpa using this)
    simp only [hv]
    refine MapperM.get_last_header_add_headers_last (by simp) ?_ ?_
    · rw [MapperM.cf_input_request_id]; exact haux
    · rw [MapperM.cf_input_request_id]
      exact MapperM.aux_oh_with_input_request_id v _ _ _

/-- C2 witness: the amended theorem applied to a concrete input whose map
function returns two records. -/
theorem C2_witness :
    RecordUtils.get_headers ⟨some [("Request-Id", HVal.vbytes "prev")], .vnone, .vnone, .vnone⟩
        "Request-Id" = .ok [some "prev"] ∧
    ∃ out, MapperM.process_record ⟨"out", "gid", "0", true⟩ "u1" "tp"
        ⟨some [("Request-Id", HVal.vbytes "prev")], .vnone, .vnone, .vnone⟩
        (.result (some (.inr [⟨some [], .vnone, .vnone, .vnone⟩,
                              ⟨some [], .vnone, .vnone, .vnone⟩]))) = .ok out ∧
      out.sent.length = 2 ∧
      (∀ r ∈ out.sent,
        RecordUtils.get_last_header r "Request-Id" = .ok (some ("out" ++ ":" ++ "u1"))) ∧
      (∀ v, ([some "prev"] : List (Option String)).getLast? = some v →
        ∀ r ∈ out.sent,
          RecordUtils.get_last_header r "Input-Request-Id" = .ok v) :=
  ⟨by rfl,
   C2_amended_thm ⟨"out", "gid", "0", true⟩ "u1" "tp"
     ⟨some [("Request-Id", HVal.vbytes "prev")], .vnone, .vnone, .vnone⟩
     [⟨some [], .vnone, .vnone, .vnone⟩, ⟨some [], .vnone, .vnone, .vnone⟩]
     [some "prev"] (by rfl) (by decide)⟩

/-- C3 counterexample: an input record carrying a `Security-Label` header
whose map function returns a **list** of one record (without a label, and
with persistent headers enabled) produces a sent record with no
`Security-Label` header — the re-propagation only happens on the
single-record code path, not the list path. -/
theorem C3_counterexample :
    MapperM.process_record ⟨"out", "gid", "0", true⟩ "u1" "tp"
        ⟨some [("Security-Label", HVal.vbytes "secret")], .vnone, .vnone, .vnone⟩
        (.result (some (.inr [⟨some [], .vnone, .vnone, .vnone⟩]))) =
      .ok { sent := [⟨some [("Request-Id", HVal.vbytes "out:u1"),
                           ("Exec-Path", HVal.vbytes "gid"),
                           ("traceparent", HVal.vbytes "tp")], .vnone, .vnone, .vnone⟩],
            dlq_sent := [], read_delta := 1, processed_delta := 1, output_delta := 1 } ∧
    RecordUtils.has_header
        ⟨some [("Request-Id", HVal.vbytes "out:u1"),
               ("Exec-Path", HVal.vbytes "gid"),
               ("traceparent", HVal.vbytes "tp")], .vnone, .vnone, .vnone⟩
        "Security-Label" = false := by
  constructor
  · rfl
  · decide

/-- C3 (amended): the inbound `Security-Label` re-propagation applies
only when the map function returns a **single** record: in that case,
when the output record does not already carry a `Security-Label` header
and `DISABLE_PERSISTENT_HEADERS != "1"`, the sent record carries exactly
the input record's `Security-Label` header values; when the map function
returns a list, the records are sent without the inbound label (see the
counterexample). -/
theorem C3_amended_thm (cfg : MapperM.MapperConfig) (uuid4 tp : String)
    (record rec : Record) (reqIds labelValues : List (Option String))
    (hdis : cfg.disable_persistent_headers ≠ "1")
    (hreq : RecordUtils.get_headers record "Request-Id" = .ok reqIds)
    (hnol : RecordUtils.has_header rec "Security-Label" = false)
    (hinl : RecordUtils.has_header record "Security-Label" = true)
    (hlab : RecordUtils.get_headers record "Security-Label" = .ok labelValues) :
    ∃ out, MapperM.process_record cfg uuid4 tp record (.result (some (.inl rec))) = .ok out ∧
      out.sent.length = 1 ∧
      ∀ r ∈ out.sent,
        RecordUtils.get_headers r "Security-Label" = .ok labelValues := by
  classical
  cases hc : reqIds.getLast? with
  | some v =>
    have hout2 : RecordUtils.has_header
        (RecordUtils.add_headers rec
          [("Input-Request-Id", MapperM.optStrToHVal v),
           ("Request-Id", .vstr (cfg.sink_name ++ ":" ++ uuid4)),
           ("Exec-Path", .vstr cfg.generated_id),
           ("traceparent", .vstr tp)]) "Security-Label" = false := by
      refine MapperM.has_header_add_headers_false (by simp) hnol ?_
      intro kv hm
      rw [MapperM.cf_security_label]
      exact MapperM.oh_with_no_security_label v _ _ _ kv hm
    have h0 := MapperM.get_headers_of_not_has hout2
    refine ⟨{ sent := [labelValues.foldl
                (fun r v => RecordUtils.add_header r "Security-Label" (MapperM.optStrToHVal v))
                (RecordUtils.add_headers rec
                  [("Input-Request-Id", MapperM.optStrToHVal v),
                   ("Request-Id", .vstr (cfg.sink_name ++ ":" ++ uuid4)),
                   ("Exec-Path", .vstr cfg.generated_id),
                   ("traceparent", .vstr tp)])],
              dlq_sent := [], read_delta := 1, processed_delta := 1, output_delta := 1 },
            ?_, by simp, ?_⟩
    · simp [MapperM.process_record, hreq, hc, hout2, hdis, hinl, hlab]
    · intro r hr
      simp only [List.mem_singleton] at hr
      subst hr
      simpa using MapperM.get_headers_foldl_add labelValues _ h0
  | none =>
    have hout2 : RecordUtils.has_header
        (RecordUtils.add_headers rec
          [("Request-Id", .vstr (cfg.sink_name ++ ":" ++ uuid4)),
           ("Exec-Path", .vstr cfg.generated_id),
           ("traceparent", .vstr tp)]) "Security-Label" = false := by
      refine MapperM.has_header_add_headers_false (by simp) hnol ?_
      intro kv hm
      rw [MapperM.cf_security_label]
      exact MapperM.oh_without_no_security_label _ _ _ kv hm
    have h0 := MapperM.get_headers_of_not_has hout2
    refine ⟨{ sent := [labelValues.foldl
                (fun r v => RecordUtils.add_header r "Security-Label" (MapperM.optStrToHVal v))
                (RecordUtils.add_headers rec
                  [("Request-Id", .vstr (cfg.sink_name ++ ":" ++ uuid4)),
                   ("Exec-Path", .vstr cfg.generated_id),
                   ("traceparent", .vstr tp)])],
              dlq_sent := [], read_delta := 1, processed_delta := 1, output_delta := 1 },
            ?_, by simp, ?_⟩
    · simp [MapperM.process_record, hreq, hc, hout2, hdis, hinl, hlab]
    · intro r hr
      simp only [List.mem_singleton] at hr
      subst hr
      simpa using MapperM.get_headers_foldl_add labelValues _ h0

/-- C3 witness: the amended theorem at a concrete input carrying one
security label, with the map function returning one plain record. -/
theorem C3_witness :
    RecordUtils.has_header
        ⟨some [("Security-Label", HVal.vbytes "secret")], .vnone, .vnone, .vnone⟩
        "Security-Label" = true ∧
    ∃ out, MapperM.process_record ⟨"out", "gid", "0", true⟩ "u1" "tp"
        ⟨some [("Security-Label", HVal.vbytes "secret")], .vnone, .vnone, .vnone⟩
        (.result (some (.inl ⟨some [], .vnone, .vnone, .vnone⟩))) = .ok out ∧
      out.sent.length = 1 ∧
      ∀ r ∈ out.sent,
        RecordUtils.get_headers r "Security-Label" = .ok [some "secret"] :=
  ⟨by decide,
   C3_amended_thm ⟨"out", "gid", "0", true⟩ "u1" "tp"
     ⟨some [("Security-Label", HVal.vbytes "secret")], .vnone, .vnone, .vnone⟩
     ⟨some [], .vnone, .vnone, .vnone⟩ [] [some "secret"]
     (by decide) (by rfl) (by decide) (by decide) (by rfl)⟩

/-- C4: a map function raising `DLQException` over a configured DLQ
target routes the input record — with an added `Dead-Letter-Reason`
header carrying the exception message — exactly once to the DLQ sink,
sends nothing to the primary sink, counts the record as processed, and
the engine continues (the step result is `ok`, not an abort). -/
theorem C4_thm (cfg : MapperM.MapperConfig) (uuid4 tp : String) (record : Record)
    (msg : String) (hdlq : cfg.dlq_configured = true) :
    MapperM.process_record cfg uuid4 tp record (.dlqException msg) =
      .ok { sent := [], dlq_sent := [MapperM.send_dlq_record record msg],
            read_delta := 1, processed_delta := 1, output_delta := 0 } ∧
    (MapperM.send_dlq_record record msg).headers =
      some (record.headers.getD [] ++ [("Dead-Letter-Reason", HVal.vbytes msg)]) := by
  constructor
  · simp [MapperM.process_record, hdlq]
  · simp [MapperM.send_dlq_record, RecordUtils.add_headers, RecordUtils.__encode_header_value]

/-- C4 witness: the theorem at a concrete record and exception message. -/
theorem C4_witness :
    (⟨"out", "gid", "0", true⟩ : MapperM.MapperConfig).dlq_configured = true ∧
    MapperM.process_record ⟨"out", "gid", "0", true⟩ "u1" "tp"
        ⟨some [("h", HVal.vbytes "x")], .vnone, .vnone, .vnone⟩ (.dlqException "boom") =
      .ok { sent := [],
            dlq_sent := [MapperM.send_dlq_record
              ⟨some [("h", HVal.vbytes "x")], .vnone, .vnone, .vnone⟩ "boom"],
            read_delta := 1, processed_delta := 1, output_delta := 0 } :=
  ⟨by decide,
   (C4_thm ⟨"out", "gid", "0", true⟩ "u1" "tp"
     ⟨some [("h", HVal.vbytes "x")], .vnone, .vnone, .vnone⟩ "boom" (by decide)).1⟩

/-- C5: the builder round-trip
`SecurityLabelBuilder().add(SingleValueLabel('classification', t), 'S')
.add_multiple(MultiValueLabel('orgs', t), 'A', 'B').build()` yields
exactly `"(classification=S&(orgs=A|orgs=B))"` (for any label types), and
a builder whose AND-group is empty and whose OR-group is non-empty builds
to the OR-expressions joined by `|` with no leading parenthesized
group. -/
theorem C5_thm :
    (∀ t1 t2 : String,
      ((SecurityLabels.SecurityLabelBuilder.mk0.add ⟨"classification", t1⟩ "S").add_multiple
          ⟨"orgs", t2⟩ ["A", "B"]).build = "(classification=S&(orgs=A|orgs=B))") ∧
    (∀ (ors used : List String), ors ≠ [] →
      SecurityLabels.SecurityLabelBuilder.build ⟨[], ors, used⟩ =
        String.intercalate "|" ors) := by
  constructor
  · intro t1 t2
    rfl
  · intro ors used hne
    have hexp : String.intercalate "&" ([] : List String) = "" := rfl
    have hstrip : (pyStrip "").length = 0 := rfl
    simp only [SecurityLabels.SecurityLabelBuilder.build, hexp, hstrip]
    simp

/-- C5 witness: the second conjunct applied to a concrete one-element
OR-group. -/
theorem C5_witness :
    (["(a=1)"] : List String) ≠ [] ∧
    SecurityLabels.SecurityLabelBuilder.build ⟨[], ["(a=1)"], []⟩ =
      String.intercalate "|" ["(a=1)"] :=
  ⟨by decide, C5_thm.2 ["(a=1)"] [] (by decide)⟩

/-- C6 counterexample: on a record that already carries a header with the
same (case-insensitively matching) key, `get_first_header` after
`add_header` returns the **pre-existing** value (`"old"`), not the value
just added (`"new"`), so `get_first_header(add_header(r,k,v), k) == v`
fails. -/
theorem C6_counterexample :
    RecordUtils.get_first_headerH
        (RecordUtils.add_headerH ⟨[[("k", HVal.vbytes "old")]]⟩
          ⟨some 0, .vnone, .vnone, .vnone⟩ "k" (.vstr "new")).1
        (RecordUtils.add_headerH ⟨[[("k", HVal.vbytes "old")]]⟩
          ⟨some 0, .vnone, .vnone, .vnone⟩ "k" (.vstr "new")).2
        "k" = .ok (some "old") ∧
    (Except.ok (some "old") : Except Unit (Option String)) ≠ .ok (some "new") := by
  constructor
  · rfl
  · simp

/-- C6 (amended): `add_header` leaves the original record untouched in
all cases — for any value and any record, matching pre-existing header
or not, the header list `r` refers to is unchanged in the resulting
store and no pre-existing store cell is modified (the namedtuple fields
`key`, `value`, `raw` of `r` are immutable values); and for a string
value `s` and a record `r` carrying no header whose key
case-insensitively matches `k`, `get_first_header(add_header(r, k, s),
k)` returns `s`.  The lookup half of the original claim fails only when
`r` already has a matching header (see the counterexample). -/
theorem C6_amended_thm (st : Store) (r : RecordR) (k : String) (v : HVal)
    (hwf : ∀ ref, r.headers = some ref → ref < st.cells.length) :
    (∀ s, v = .vstr s →
      (∀ kv ∈ r.headerList st, pyCasefold kv.1 ≠ pyCasefold k) →
      RecordUtils.get_first_headerH (RecordUtils.add_headerH st r k v).1
        (RecordUtils.add_headerH st r k v).2 k = .ok (some s)) ∧
    (∀ ref, r.headers = some ref →
      (RecordUtils.add_headerH st r k v).1.read ref = st.read ref) ∧
    (∀ i, i < st.cells.length →
      (RecordUtils.add_headerH st r k v).1.cells[i]? = st.cells[i]?) := by
  have hps : ∀ i, i < st.cells.length →
      (st.cells ++
        [r.headerList st ++ [(k, RecordUtils.__encode_header_value v)]])[i]? =
      st.cells[i]? := by
    intro i hi
    exact List.getElem?_append_left hi
  refine ⟨?_, ?_, ?_⟩
  · intro s hv hnew
    subst hv
    show RecordUtils.get_first_header_aux
        ((Store.mk (st.cells ++ [r.headerList st ++ [(k, HVal.vbytes s)]])).read
          st.cells.length) (pyCasefold k) = .ok (some s)
    have hread : (Store.mk (st.cells ++ [r.headerList st ++ [(k, HVal.vbytes s)]])).read
        st.cells.length = r.headerList st ++ [(k, HVal.vbytes s)] := by
      simp [Store.read]
    rw [hread, RecordUtils.get_first_header_aux_append_skip _ hnew]
    simp [RecordUtils.get_first_header_aux, RecordUtils.__decode_header_value__]
  · intro ref href
    have hi := hwf ref href
    simp only [RecordUtils.add_headerH, Store.alloc, Store.read]
    rw [hps ref hi]
  · intro i hi
    simpa only [RecordUtils.add_headerH, Store.alloc] using hps i hi

/-- C6 witness: the amended theorem applied twice — the lookup half at a
record holding one header under a different key, and the immutability
half at the counterexample's own configuration, a record that already
carries a case-insensitively matching header. -/
theorem C6_witness :
    (∀ kv ∈ RecordR.headerList ⟨[[("other", HVal.vbytes "o")]]⟩
        ⟨some 0, .vnone, .vnone, .vnone⟩, pyCasefold kv.1 ≠ pyCasefold "k") ∧
    RecordUtils.get_first_headerH
        (RecordUtils.add_headerH ⟨[[("other", HVal.vbytes "o")]]⟩
          ⟨some 0, .vnone, .vnone, .vnone⟩ "k" (.vstr "v")).1
        (RecordUtils.add_headerH ⟨[[("other", HVal.vbytes "o")]]⟩
          ⟨some 0, .vnone, .vnone, .vnone⟩ "k" (.vstr "v")).2
        "k" = .ok (some "v") ∧
    (RecordUtils.add_headerH ⟨[[("k", HVal.vbytes "old")]]⟩
        ⟨some 0, .vnone, .vnone, .vnone⟩ "k" (.vstr "new")).1.read 0 =
      Store.read ⟨[[("k", HVal.vbytes "old")]]⟩ 0 :=
  ⟨by decide,
   (C6_amended_thm ⟨[[("other", HVal.vbytes "o")]]⟩ ⟨some 0, .vnone, .vnone, .vnone⟩
     "k" (.vstr "v") (by intro ref h; cases h; decide)).1 "v" rfl (by decide),
   (C6_amended_thm ⟨[[("k", HVal.vbytes "old")]]⟩ ⟨some 0, .vnone, .vnone, .vnone⟩
     "k" (.vstr "new") (by intro ref h; cases h; decide)).2.1 0 rfl⟩

namespace RecordUtils

theorem replace_first_aux_none_iff {h : String} {v : HVal} {hs : List Header} :
    replace_first_aux h v hs = none ↔ ∀ kv ∈ hs, pyCasefold kv.1 ≠ h := by
  induction hs with
  | nil => simp [replace_first_aux]
  | cons kv rest ih =>
    obtain ⟨k, w⟩ := kv
    by_cases hk : pyCasefold k = h
    · simp [replace_first_aux, hk]
    · simp only [replace_first_aux, if_neg hk, Option.map_eq_none', ih, List.mem_cons]
      constructor
      · rintro hall kv2 (rfl | hm)
        · exact hk
        · exact hall kv2 hm
      · intro hall kv2 hm
        exact hall kv2 (Or.inr hm)

theorem replace_first_aux_keys {h : String} {v : HVal} {hs l : List Header}
    (heq : replace_first_aux h v hs = some l) :
    l.map Prod.fst = hs.map Prod.fst := by
  induction hs generalizing l with
  | nil => cases heq
  | cons kv rest ih =>
    obtain ⟨k, w⟩ := kv
    by_cases hk : pyCasefold k = h
    · simp only [replace_first_aux, if_pos hk, Option.some_inj] at heq
      subst heq
      rfl
    · simp only [replace_first_aux, if_neg hk, Option.map_eq_some'] at heq
      obtain ⟨l0, hl0, rfl⟩ := heq
      simp [ih hl0]

end RecordUtils

/-- C7 counterexample: `replace_or_add_header` on a record without a
matching header stores the **casefolded** key `"k"` even though the
caller supplied `"K"` — a mutation operation that stores a case-altered
key, refuting the storage-case-preservation half of the claim. -/
theorem C7_counterexample :
    RecordUtils.replace_or_add_header ⟨some [], .vnone, .vnone, .vnone⟩ "K" (.vstr "x") =
      ⟨some [("k", HVal.vstr "x")], .vnone, .vnone, .vnone⟩ ∧
    ("k" : String) ≠ "K" := by
  constructor
  · rfl
  · decide

/-- C7 (amended): all read operations (`get_first_header`,
`get_last_header`, `get_headers`, `has_header`) match keys
case-insensitively; `add_header`, `add_headers` and `remove_header`
store only keys with their original case (appended keys verbatim,
surviving entries untouched); `replace_or_add_header` preserves the
stored keys when a match exists (replacement keeps the stored entry's
case), but when no match exists it appends the **casefolded** supplied
key, not the original-case key — the one exception to the claim. -/
theorem C7_amended_thm :
    (∀ (r : Record) (k1 k2 : String), pyCasefold k1 = pyCasefold k2 →
      RecordUtils.get_first_header r k1 = RecordUtils.get_first_header r k2 ∧
      RecordUtils.get_last_header r k1 = RecordUtils.get_last_header r k2 ∧
      RecordUtils.get_headers r k1 = RecordUtils.get_headers r k2 ∧
      RecordUtils.has_header r k1 = RecordUtils.has_header r k2) ∧
    (∀ (r : Record) (k : String) (v : HVal),
      RecordUtils.headerKeys (RecordUtils.add_header r k v) =
        RecordUtils.headerKeys r ++ [k]) ∧
    (∀ (r : Record) (hs : List Header), hs ≠ [] →
      RecordUtils.headerKeys (RecordUtils.add_headers r hs) =
        RecordUtils.headerKeys r ++ hs.map Prod.fst) ∧
    (∀ (r : Record) (k : String) (v : Option HVal),
      ((RecordUtils.remove_header r k v).headers.getD []).Sublist (r.headers.getD [])) ∧
    (∀ (r : Record) (k : String) (v : HVal),
      (RecordUtils.has_header r k = true →
        RecordUtils.headerKeys (RecordUtils.replace_or_add_header r k v) =
          RecordUtils.headerKeys r) ∧
      (RecordUtils.has_header r k = false →
        RecordUtils.headerKeys (RecordUtils.replace_or_add_header r k v) =
          RecordUtils.headerKeys r ++ [pyCasefold k])) := by
  refine ⟨?_, ?_, ?_, ?_, ?_⟩
  · intro r k1 k2 h
    have hgh : RecordUtils.get_headers r k1 = RecordUtils.get_headers r k2 := by
      simp only [RecordUtils.get_headers_eq_aux, h]
    refine ⟨?_, ?_, hgh, ?_⟩
    · simp only [RecordUtils.get_first_header_eq_aux, h]
    · simp only [RecordUtils.get_last_header, hgh]
    · simp only [RecordUtils.has_header_eq_any, h]
  · intro r k v
    simp [RecordUtils.headerKeys, RecordUtils.add_header]
  · intro r hs hne
    have hlen : ¬ hs.length = 0 := by simpa [List.length_eq_zero] using hne
    simp [RecordUtils.headerKeys, RecordUtils.add_headers, hlen, List.map_map]
  · intro r k v
    cases hh : r.headers with
    | none => simp [RecordUtils.remove_header, hh]
    | some hs => simp [RecordUtils.remove_header, hh, List.filter_sublist]
  · intro r k v
    constructor
    · intro hhas
      rw [RecordUtils.has_header_eq_any] at hhas
      have hmatch : ∃ kv ∈ r.headers.getD [], pyCasefold kv.1 = pyCasefold k := by
        obtain ⟨kv, hm, hp⟩ := List.any_eq_true.mp hhas
        exact ⟨kv, hm, by simpa using hp⟩
      cases hrep : RecordUtils.replace_first_aux (pyCasefold k) v (r.headers.getD []) with
      | none =>
        obtain ⟨kv, hm, hp⟩ := hmatch
        exact absurd hp (RecordUtils.replace_first_aux_none_iff.mp hrep kv hm)
      | some l =>
        simp only [RecordUtils.replace_or_add_header, hrep, RecordUtils.headerKeys]
        exact RecordUtils.replace_first_aux_keys hrep
    · intro hhas
      rw [RecordUtils.has_header_eq_any] at hhas
      have hnone : RecordUtils.replace_first_aux (pyCasefold k) v (r.headers.getD []) = none :=
        RecordUtils.replace_first_aux_none_iff.mpr (MapperM.any_eq_false_key hhas)
      simp [RecordUtils.replace_or_add_header, hnone, RecordUtils.headerKeys]

/-- C7 witness: the case-insensitive-read conjunct at a concrete record
and a pair of keys differing only in case. -/
theorem C7_witness :
    pyCasefold "AbC" = pyCasefold "abc" ∧
    RecordUtils.get_first_header ⟨some [("aBc", HVal.vbytes "v")], .vnone, .vnone, .vnone⟩
        "AbC" =
      RecordUtils.get_first_header ⟨some [("aBc", HVal.vbytes "v")], .vnone, .vnone, .vnone⟩
        "abc" :=
  ⟨by decide,
   (C7_amended_thm.1 ⟨some [("aBc", HVal.vbytes "v")], .vnone, .vnone, .vnone⟩
     "AbC" "abc" (by decide)).1⟩

/-- C8 counterexample: for a started action (5 records processed, batch
size 25000, reporter and error handler configured), `finished()` flushes
the partial batch and stops the heartbeat but **never closes the error
handler**, and `aborted()` closes the error handler but **does not reset
the counters** (the counter stays 5). -/
theorem C8_counterexample :
    ActionM.finished 1 ⟨25000, 5, 5, 5, 0, 0, 0, 25000, some 0, some 0, true, true⟩ =
      some (⟨25000, 0, 5, 5, 0, 0, 5, 25000, none, none, true, true⟩,
            [ActionM.ActionEv.reported 5, ActionM.ActionEv.heartbeatStopped]) ∧
    ActionM.ActionEv.errorHandlerClosed ∉
      [ActionM.ActionEv.reported 5, ActionM.ActionEv.heartbeatStopped] ∧
    ActionM.aborted 1 ⟨25000, 5, 5, 5, 0, 0, 0, 25000, some 0, some 0, true, true⟩ =
      some (⟨25000, 5, 5, 5, 0, 0, 5, 50000, some 1, some 0, true, true⟩,
            [ActionM.ActionEv.reported 5, ActionM.ActionEv.heartbeatStopped,
             ActionM.ActionEv.errorHandlerClosed]) ∧
    (5 : Nat) ≠ 0 := by
  refine ⟨by decide, by decide, by decide, by decide⟩

/-- C8 (amended): for a started action with a positive reporting batch
size, both `finished()` and `aborted()` flush a pending partial-batch
progress report and stop/unregister the reporter's heartbeat when one is
configured; but only `finished()` resets the progress counters and
timers (and it never closes the error handler), while only `aborted()`
closes the error handler when one is configured (and it leaves the
counters and total timer untouched). -/
theorem C8_amended_thm (now : Nat) (s : ActionM.ActionState)
    (hstarted : s.batch_timer ≠ none)
    (hbatch : s.reporting_batch_size ≠ 0) :
    (∃ s' evs, ActionM.finished now s = some (s', evs) ∧
      (s.counter % s.reporting_batch_size ≠ 0 ∧ s.last_report_at ≠ s.counter →
        ActionM.ActionEv.reported s.counter ∈ evs) ∧
      s'.counter = 0 ∧ s'.expected = 0 ∧ s'.error_count = 0 ∧
      s'.total_timer = none ∧ s'.batch_timer = none ∧
      (s.hasReporter = true → ActionM.ActionEv.heartbeatStopped ∈ evs) ∧
      ActionM.ActionEv.errorHandlerClosed ∉ evs) ∧
    (∃ s' evs, ActionM.aborted now s = some (s', evs) ∧
      (s.counter % s.reporting_batch_size ≠ 0 ∧ s.last_report_at ≠ s.counter →
        ActionM.ActionEv.reported s.counter ∈ evs) ∧
      s'.counter = s.counter ∧ s'.error_count = s.error_count ∧
      s'.total_timer = s.total_timer ∧
      (s.hasReporter = true → ActionM.ActionEv.heartbeatStopped ∈ evs) ∧
      (s.hasErrorHandler = true → ActionM.ActionEv.errorHandlerClosed ∈ evs)) := by
  obtain ⟨t, ht⟩ := Option.ne_none_iff_exists'.mp hstarted
  cases hE : (if s.counter % s.reporting_batch_size ≠ 0
      then ActionM.report_progress now s else (s, [])) with
  | mk s1 ev1 =>
  -- facts about the flush step shared by both lifecycle methods
  have hs1 : s1.counter = s.counter ∧ s1.error_count = s.error_count ∧
      s1.total_timer = s.total_timer := by
    by_cases hc : s.counter % s.reporting_batch_size ≠ 0
    · rw [if_pos hc] at hE
      by_cases hl : s.last_report_at = s.counter
      · simp only [ActionM.report_progress, if_pos hl, Prod.mk.injEq] at hE
        rw [← hE.1]
        exact ⟨rfl, rfl, rfl⟩
      · simp only [ActionM.report_progress, if_neg hl, Prod.mk.injEq] at hE
        rw [← hE.1]
        exact ⟨rfl, rfl, rfl⟩
    · rw [if_neg hc] at hE
      rw [← (Prod.mk.injEq .. |>.mp hE).1]
      exact ⟨rfl, rfl, rfl⟩
  have hev1 : (s.counter % s.reporting_batch_size ≠ 0 ∧ s.last_report_at ≠ s.counter →
      ActionM.ActionEv.reported s.counter ∈ ev1) ∧
      (∀ e ∈ ev1, ∃ n, e = ActionM.ActionEv.reported n) := by
    by_cases hc : s.counter % s.reporting_batch_size ≠ 0
    · rw [if_pos hc] at hE
      by_cases hl : s.last_report_at = s.counter
      · simp only [ActionM.report_progress, if_pos hl, Prod.mk.injEq] at hE
        rw [← hE.2]
        exact ⟨fun h => absurd hl h.2, by simp⟩
      · simp only [ActionM.report_progress, if_neg hl, Prod.mk.injEq] at hE
        rw [← hE.2]
        exact ⟨fun _ => by simp, by simp⟩
    · rw [if_neg hc] at hE
      rw [← (Prod.mk.injEq .. |>.mp hE).2]
      exact ⟨fun h => absurd h.1 hc, by simp⟩
  have hfin : ActionM.finished now s =
      some (ActionM.__reset_counters__ s1,
        ev1 ++ (if s.hasReporter then [ActionM.ActionEv.heartbeatStopped] else [])) := by
    simp only [ActionM.finished, ht]
    rw [if_neg hbatch, hE]
  have hab : ActionM.aborted now s =
      some (s1,
        ev1 ++ (if s.hasReporter then [ActionM.ActionEv.heartbeatStopped] else []) ++
          (if s.hasErrorHandler then [ActionM.ActionEv.errorHandlerClosed] else [])) := by
    simp only [ActionM.aborted]
    rw [if_neg hbatch, hE]
  constructor
  · refine ⟨_, _, hfin, ?_, rfl, rfl, rfl, rfl, rfl, ?_, ?_⟩
    · intro h
      exact List.mem_append_left _ (hev1.1 h)
    · intro h
      rw [if_pos h]
      exact List.mem_append_right _ (by simp)
    · intro hmem
      rcases List.mem_append.mp hmem with hm | hm
      · obtain ⟨n, hn⟩ := hev1.2 _ hm
        cases hn
      · by_cases hr : s.hasReporter <;> simp [hr] at hm
  · refine ⟨_, _, hab, ?_, hs1.1, hs1.2.1, hs1.2.2, ?_, ?_⟩
    · intro h
      exact List.mem_append_left _ (List.mem_append_left _ (hev1.1 h))
    · intro h
      rw [if_pos h]
      exact List.mem_append_left _ (List.mem_append_right _ (by simp))
    · intro h
      rw [if_pos h]
      exact List.mem_append_right _ (by simp)

/-- C8 witness: the amended theorem at a concrete started action state
with both a reporter and an error handler configured. -/
theorem C8_witness :
    (⟨25000, 5, 5, 5, 0, 0, 0, 25000, some 0, some 0, true, true⟩ :
        ActionM.ActionState).batch_timer ≠ none ∧
    ((∃ s' evs, ActionM.finished 1
        ⟨25000, 5, 5, 5, 0, 0, 0, 25000, some 0, some 0, true, true⟩ = some (s', evs) ∧
      ((5 : Nat) % 25000 ≠ 0 ∧ (0 : Nat) ≠ 5 →
        ActionM.ActionEv.reported 5 ∈ evs) ∧
      s'.counter = 0 ∧ s'.expected = 0 ∧ s'.error_count = 0 ∧
      s'.total_timer = none ∧ s'.batch_timer = none ∧
      (true = true → ActionM.ActionEv.heartbeatStopped ∈ evs) ∧
      ActionM.ActionEv.errorHandlerClosed ∉ evs) ∧
    (∃ s' evs, ActionM.aborted 1
        ⟨25000, 5, 5, 5, 0, 0, 0, 25000, some 0, some 0, true, true⟩ = some (s', evs) ∧
      ((5 : Nat) % 25000 ≠ 0 ∧ (0 : Nat) ≠ 5 →
        ActionM.ActionEv.reported 5 ∈ evs) ∧
      s'.counter = 5 ∧ s'.error_count = 0 ∧
      s'.total_timer = some 0 ∧
      (true = true → ActionM.ActionEv.heartbeatStopped ∈ evs) ∧
      (true = true → ActionM.ActionEv.errorHandlerClosed ∈ evs))) :=
  ⟨by decide,
   C8_amended_thm 1 ⟨25000, 5, 5, 5, 0, 0, 0, 25000, some 0, some 0, true, true⟩
     (by decide) (by decide)⟩

namespace KafkaSink

theorem sendNormalize_ok {hs : List Header}
    (h : ∀ kv ∈ hs, strOrBytes kv.2 = true) :
    sendNormalize hs = (hs.map (fun kv => (kv.1, sinkEncode kv.2)), none) := by
  induction hs with
  | nil => rfl
  | cons kv rest ih =>
    obtain ⟨k, v⟩ := kv
    have hv : strOrBytes v = true := h (k, v) (List.mem_cons_self _ _)
    have hrest := ih fun kv hm => h kv (List.mem_cons_of_mem _ hm)
    cases v with
    | vstr s => simp [sendNormalize, hrest, sinkEncode]
    | vbytes b => simp [sendNormalize, hrest, sinkEncode]
    | vnone => simp [strOrBytes] at hv
    | vdict j => simp [strOrBytes] at hv

end KafkaSink

/-- C9 counterexample: a record whose header value is a dict makes
`KafkaSink.send` raise `TypeError` instead of JSON-encoding it — dict
values are only encoded by the `RecordUtils` header constructors, never
by the sink. -/
theorem C9_counterexample :
    KafkaSink.sendH ⟨[[("k", HVal.vdict "j")]]⟩ ⟨some 0, .vnone, .vnone, .vnone⟩ =
      (⟨[[("k", HVal.vdict "j")]]⟩, some ()) ∧
    (some () : Option Unit) ≠ none := by
  constructor
  · rfl
  · simp

/-- C9 (amended): when every header value of the record is a `str` or
`bytes`, `KafkaSink.send` hands the record to the producer without
raising, with `str` values transparently UTF-8-encoded so that all
headers reach the transport as `(string key, bytes value)` pairs; a
`dict` (or `None`) header value instead raises `TypeError` (see the
counterexample) — dict JSON-encoding happens only in the `RecordUtils`
header constructors, upstream of the sink. -/
theorem C9_amended_thm (hs : List Header)
    (h : ∀ kv ∈ hs, KafkaSink.strOrBytes kv.2 = true) :
    KafkaSink.sendNormalize hs =
      (hs.map (fun kv => (kv.1, KafkaSink.sinkEncode kv.2)), none) ∧
    (∀ kv ∈ (KafkaSink.sendNormalize hs).1, ∃ b, kv.2 = HVal.vbytes b) ∧
    (∀ (st : Store) (r : RecordR) (ref : Nat), r.headers = some ref →
      st.read ref = hs →
      KafkaSink.sendH st r =
        (st.write ref (hs.map (fun kv => (kv.1, KafkaSink.sinkEncode kv.2))), none)) := by
  have hn := KafkaSink.sendNormalize_ok h
  refine ⟨hn, ?_, ?_⟩
  · intro kv hm
    rw [hn] at hm
    simp only [List.mem_map] at hm
    obtain ⟨kv0, hkv0, rfl⟩ := hm
    have hv := h kv0 hkv0
    cases hv2 : kv0.2 with
    | vstr s => exact ⟨s, by simp [KafkaSink.sinkEncode, hv2]⟩
    | vbytes b => exact ⟨b, by simp [KafkaSink.sinkEncode, hv2]⟩
    | vnone => rw [hv2] at hv; simp [KafkaSink.strOrBytes] at hv
    | vdict j => rw [hv2] at hv; simp [KafkaSink.strOrBytes] at hv
  · intro st r ref href hread
    simp only [KafkaSink.sendH, href, hread, hn]

/-- C9 witness: the amended theorem at a record with one `str`-valued and
one `bytes`-valued header. -/
theorem C9_witness :
    (∀ kv ∈ [("a", HVal.vstr "s"), ("b", HVal.vbytes "t")],
      KafkaSink.strOrBytes kv.2 = true) ∧
    KafkaSink.sendNormalize [("a", HVal.vstr "s"), ("b", HVal.vbytes "t")] =
      ([("a", HVal.vstr "s"), ("b", HVal.vbytes "t")].map
        (fun kv => (kv.1, KafkaSink.sinkEncode kv.2)), none) :=
  ⟨by decide,
   (C9_amended_thm [("a", HVal.vstr "s"), ("b", HVal.vbytes "t")] (by decide)).1⟩

/-- C10: `KafkaSink.send` mutates its argument: for a record whose
header list contains a `str`-valued entry (and only str/bytes values, so
no exception), `send` replaces that entry in the caller's list cell in
place with the UTF-8-encoded bytes value, and after the call the list
the caller's record refers to observably differs from before. -/
theorem C10_thm (st : Store) (r : RecordR) (ref i : Nat) (k s : String)
    (href : r.headers = some ref)
    (hok : ∀ kv ∈ st.read ref, KafkaSink.strOrBytes kv.2 = true)
    (hstr : (st.read ref)[i]? = some (k, HVal.vstr s)) :
    (KafkaSink.sendH st r).2 = none ∧
    ((KafkaSink.sendH st r).1.read ref)[i]? = some (k, HVal.vbytes s) ∧
    (KafkaSink.sendH st r).1.read ref ≠ st.read ref := by
  have hlt : ref < st.cells.length := by
    by_contra hge
    have hnone : st.cells[ref]? = none := List.getElem?_eq_none (le_of_not_lt hge)
    rw [Store.read, hnone] at hstr
    simp at hstr
  have hn := KafkaSink.sendNormalize_ok hok
  have hsend : KafkaSink.sendH st r =
      (st.write ref ((st.read ref).map (fun kv => (kv.1, KafkaSink.sinkEncode kv.2))), none) := by
    simp only [KafkaSink.sendH, href, hn]
  have hreadw : (KafkaSink.sendH st r).1.read ref =
      (st.read ref).map (fun kv => (kv.1, KafkaSink.sinkEncode kv.2)) := by
    rw [hsend]
    simp [Store.read, Store.write, List.getElem?_set_self', hlt]
  refine ⟨by rw [hsend], ?_, ?_⟩
  · rw [hreadw]
    simp [hstr, KafkaSink.sinkEncode]
  · rw [hreadw]
    intro hcontra
    have h1 : ((st.read ref).map
        (fun kv => (kv.1, KafkaSink.sinkEncode kv.2)))[i]? = some (k, HVal.vbytes s) := by
      simp [hstr, KafkaSink.sinkEncode]
    rw [hcontra, hstr] at h1
    cases h1

/-- C10 witness: the theorem at a one-cell store whose record has a
single str-valued header. -/
theorem C10_witness :
    ((⟨[[("k", HVal.vstr "x")]]⟩ : Store).read 0)[0]? = some ("k", HVal.vstr "x") ∧
    (KafkaSink.sendH ⟨[[("k", HVal.vstr "x")]]⟩ ⟨some 0, .vnone, .vnone, .vnone⟩).2 = none ∧
    ((KafkaSink.sendH ⟨[[("k", HVal.vstr "x")]]⟩
        ⟨some 0, .vnone, .vnone, .vnone⟩).1.read 0)[0]? = some ("k", HVal.vbytes "x") ∧
    (KafkaSink.sendH ⟨[[("k", HVal.vstr "x")]]⟩
        ⟨some 0, .vnone, .vnone, .vnone⟩).1.read 0 ≠
      (⟨[[("k", HVal.vstr "x")]]⟩ : Store).read 0 :=
  ⟨by decide,
   C10_thm ⟨[[("k", HVal.vstr "x")]]⟩ ⟨some 0, .vnone, .vnone, .vnone⟩ 0 0 "k" "x"
     (by decide) (by decide) (by decide)⟩

namespace KafkaSourceM

theorem applyEvent_preserve (s : SourceState) (e : RebalanceEvent) :
    (applyEvent s e).already_seeked = s.already_seeked ∧
    (applyEvent s e).reset_position = s.reset_position ∧
    (applyEvent s e).script = s.script ∧
    (applyEvent s e).commit_interval = s.commit_interval := by
  cases e <;> exact ⟨rfl, rfl, rfl, rfl⟩

theorem foldl_applyEvent_preserve (evs : List RebalanceEvent) (s : SourceState) :
    (evs.foldl applyEvent s).already_seeked = s.already_seeked ∧
    (evs.foldl applyEvent s).reset_position = s.reset_position ∧
    (evs.foldl applyEvent s).script = s.script ∧
    (evs.foldl applyEvent s).commit_interval = s.commit_interval := by
  induction evs generalizing s with
  | nil => exact ⟨rfl, rfl, rfl, rfl⟩
  | cons e rest ih =>
    have h1 := applyEvent_preserve s e
    have h2 := ih (applyEvent s e)
    exact ⟨h1.1 ▸ h2.1, h1.2.1 ▸ h2.2.1, h1.2.2.1 ▸ h2.2.2.1, h1.2.2.2 ▸ h2.2.2.2⟩

theorem foldl_applyEvent_needs_seek_true (evs : List RebalanceEvent) (s : SourceState)
    (h : s.needs_seek = true) :
    (evs.foldl applyEvent s).needs_seek = true := by
  induction evs generalizing s with
  | nil => exact h
  | cons e rest ih =>
    refine ih (applyEvent s e) ?_
    cases e with
    | assign ps => rfl
    | revoke ps => exact h

theorem foldl_applyEvent_needs_seek_of_assign (evs : List RebalanceEvent) (s : SourceState)
    (h : ∃ ps, RebalanceEvent.assign ps ∈ evs) :
    (evs.foldl applyEvent s).needs_seek = true := by
  induction evs generalizing s with
  | nil => obtain ⟨ps, hm⟩ := h; cases hm
  | cons e rest ih =>
    obtain ⟨ps, hm⟩ := h
    rcases List.mem_cons.mp hm with rfl | hm2
    · exact foldl_applyEvent_needs_seek_true rest _ rfl
    · exact ih (applyEvent s e) ⟨ps, hm2⟩

theorem poll_events (s : SourceState) : (poll s).2.2 = [Ev.polled] := by
  cases h : s.script <;> simp [poll, h]

theorem poll_preserve (s : SourceState) :
    (poll s).2.1.already_seeked = s.already_seeked ∧
    (poll s).2.1.reset_position = s.reset_position ∧
    (poll s).2.1.commit_interval = s.commit_interval := by
  cases h : s.script with
  | nil => simp [poll, h]
  | cons pr rest =>
    have := foldl_applyEvent_preserve pr.events { s with script := rest }
    simp only [poll, h]
    exact ⟨this.1, this.2.1, this.2.2.2⟩

theorem poll_cons (s : SourceState) (pr : PollResult) (rest : List PollResult)
    (h : s.script = pr :: rest) :
    (poll s).1 = pr.msg ∧ (poll s).2.1.script = rest ∧
    (poll s).2.1.needs_seek = (pr.events.foldl applyEvent { s with script := rest }).needs_seek := by
  have hpre := foldl_applyEvent_preserve pr.events { s with script := rest }
  refine ⟨?_, ?_, ?_⟩ <;> simp only [poll, h]
  · exact hpre.2.2.1

theorem seekPartitions_mem_preserve (t : SeekOffset) (ps seeked : List Partition)
    (p : Partition) (h : p ∈ seeked) :
    p ∈ (seekPartitions t ps seeked).1 := by
  induction ps generalizing seeked with
  | nil => exact h
  | cons q rest ih =>
    by_cases hq : q ∈ seeked
    · simp only [seekPartitions, if_pos hq]
      exact ih seeked h
    · simp only [seekPartitions, if_neg hq]
      exact ih (seeked ++ [q]) (List.mem_append_left _ h)

theorem seekPartitions_no_reseek (t : SeekOffset) (ps seeked : List Partition)
    (p : Partition) (h : p ∈ seeked) (t2 : SeekOffset) :
    Ev.seeked p t2 ∉ (seekPartitions t ps seeked).2 := by
  induction ps generalizing seeked with
  | nil => simp [seekPartitions]
  | cons q rest ih =>
    by_cases hq : q ∈ seeked
    · simp only [seekPartitions, if_pos hq]
      exact ih seeked h
    · simp only [seekPartitions, if_neg hq]
      intro hmem
      rcases List.mem_cons.mp hmem with heq | hmem2
      · cases heq
        exact hq h
      · rcases List.mem_cons.mp hmem2 with heq | hmem3
        · cases heq
        · exact ih (seeked ++ [q]) (List.mem_append_left _ h) hmem3

theorem seekPartitions_events_shape (t : SeekOffset) (ps seeked : List Partition) :
    ∀ e ∈ (seekPartitions t ps seeked).2,
      (∃ p, e = Ev.seeked p t ∧ p ∉ seeked) ∨ (∃ p, e = Ev.committedSeek p) := by
  induction ps generalizing seeked with
  | nil => simp [seekPartitions]
  | cons q rest ih =>
    intro e hmem
    by_cases hq : q ∈ seeked
    · rw [seekPartitions, if_pos hq] at hmem
      exact ih seeked e hmem
    · rw [seekPartitions, if_neg hq] at hmem
      rcases List.mem_cons.mp hmem with rfl | hmem2
      · exact Or.inl ⟨q, rfl, hq⟩
      rcases List.mem_cons.mp hmem2 with rfl | hmem3
      · exact Or.inr ⟨q, rfl⟩
      rcases ih (seeked ++ [q]) e hmem3 with ⟨p, rfl, hp⟩ | hr
      · exact Or.inl ⟨p, rfl, fun hps => hp (List.mem_append_left _ hps)⟩
      · exact Or.inr hr

end KafkaSourceM

namespace KafkaSourceM

theorem nextIter_seek_beginning (s : SourceState) (h0 : s.needs_seek = false)
    (h1 : (poll s).2.1.needs_seek = true)
    (hrp : s.reset_position = "beginning") :
    nextIter s =
      ((poll (__seek_to_beginning__ (poll s).2.1).1).1,
       { (poll (__seek_to_beginning__ (poll s).2.1).1).2.1 with needs_seek := false },
       (poll s).2.2 ++ (__seek_to_beginning__ (poll s).2.1).2 ++
         (poll (__seek_to_beginning__ (poll s).2.1).1).2.2) := by
  have hrp2 : (poll s).2.1.reset_position = "beginning" := (poll_preserve s).2.1.trans hrp
  simp only [nextIter, h0, Bool.false_eq_true, not_false_eq_true, if_true, h1, if_pos, hrp2]

theorem nextIter_seek_end (s : SourceState) (h0 : s.needs_seek = false)
    (h1 : (poll s).2.1.needs_seek = true)
    (hrp : s.reset_position = "end") :
    nextIter s =
      ((poll (__seek_to_end__ (poll s).2.1).1).1,
       { (poll (__seek_to_end__ (poll s).2.1).1).2.1 with needs_seek := false },
       (poll s).2.2 ++ (__seek_to_end__ (poll s).2.1).2 ++
         (poll (__seek_to_end__ (poll s).2.1).1).2.2) := by
  have hrp2 : (poll s).2.1.reset_position = "end" := (poll_preserve s).2.1.trans hrp
  simp only [nextIter, h0, Bool.false_eq_true, not_false_eq_true, if_true, h1, if_pos, hrp2]
  simp

theorem nextIter_seek_other (s : SourceState) (h0 : s.needs_seek = false)
    (h1 : (poll s).2.1.needs_seek = true)
    (hb : s.reset_position ≠ "beginning") (he : s.reset_position ≠ "end") :
    nextIter s =
      ((poll s).1, { (poll s).2.1 with needs_seek := false }, (poll s).2.2) := by
  have hb2 : ¬ (poll s).2.1.reset_position = "beginning" := by
    rw [(poll_preserve s).2.1]; exact hb
  have he2 : ¬ (poll s).2.1.reset_position = "end" := by
    rw [(poll_preserve s).2.1]; exact he
  simp only [nextIter, h0, Bool.false_eq_true, not_false_eq_true, if_true, h1, if_pos,
    if_neg hb2, if_neg he2]

theorem nextIter_noseek (s : SourceState) (h0 : s.needs_seek = false)
    (h1 : (poll s).2.1.needs_seek = false) :
    nextIter s = poll s := by
  simp only [nextIter, h0, Bool.false_eq_true, not_false_eq_true, if_true, h1, if_false,
    Prod.mk.eta]

theorem nextIter_entry_beginning (s : SourceState) (h0 : s.needs_seek = true)
    (hrp : s.reset_position = "beginning") :
    nextIter s =
      ((poll (__seek_to_beginning__ s).1).1,
       { (poll (__seek_to_beginning__ s).1).2.1 with needs_seek := false },
       [] ++ (__seek_to_beginning__ s).2 ++ (poll (__seek_to_beginning__ s).1).2.2) := by
  simp only [nextIter, h0, not_true, if_neg, if_false, if_pos, hrp]

theorem nextIter_entry_end (s : SourceState) (h0 : s.needs_seek = true)
    (hrp : s.reset_position = "end") :
    nextIter s =
      ((poll (__seek_to_end__ s).1).1,
       { (poll (__seek_to_end__ s).1).2.1 with needs_seek := false },
       [] ++ (__seek_to_end__ s).2 ++ (poll (__seek_to_end__ s).1).2.2) := by
  simp only [nextIter, h0, not_true, if_neg, if_false, if_pos, hrp]
  simp

theorem nextIter_entry_other (s : SourceState) (h0 : s.needs_seek = true)
    (hb : s.reset_position ≠ "beginning") (he : s.reset_position ≠ "end") :
    nextIter s = (none, { s with needs_seek := false }, []) := by
  simp [nextIter, h0, hb, he]

theorem seek_to_beginning_state (s : SourceState) :
    (__seek_to_beginning__ s).1.already_seeked =
      (seekPartitions .OFFSET_BEGINNING s.assignment s.already_seeked).1 ∧
    (__seek_to_beginning__ s).1.reset_position = s.reset_position ∧
    (__seek_to_beginning__ s).1.script = s.script ∧
    (__seek_to_beginning__ s).2 =
      (seekPartitions .OFFSET_BEGINNING s.assignment s.already_seeked).2 := by
  simp [__seek_to_beginning__]

theorem seek_to_end_state (s : SourceState) :
    (__seek_to_end__ s).1.already_seeked =
      (seekPartitions .OFFSET_END s.assignment s.already_seeked).1 ∧
    (__seek_to_end__ s).1.reset_position = s.reset_position ∧
    (__seek_to_end__ s).1.script = s.script ∧
    (__seek_to_end__ s).2 =
      (seekPartitions .OFFSET_END s.assignment s.already_seeked).2 := by
  simp [__seek_to_end__]

theorem nextIter_no_reseek (s : SourceState) (p : Partition)
    (h : p ∈ s.already_seeked) :
    p ∈ (nextIter s).2.1.already_seeked ∧
    ∀ t, Ev.seeked p t ∉ (nextIter s).2.2 := by
  have hnoev : ∀ (s0 : SourceState) (t : SeekOffset), Ev.seeked p t ∉ (poll s0).2.2 := by
    intro s0 t
    rw [poll_events]
    simp
  by_cases h0 : s.needs_seek
  · by_cases hb : s.reset_position = "beginning"
    · rw [nextIter_entry_beginning s h0 hb]
      have hmem : p ∈ (__seek_to_beginning__ s).1.already_seeked := by
        rw [(seek_to_beginning_state s).1]
        exact seekPartitions_mem_preserve _ _ _ _ h
      refine ⟨?_, ?_⟩
      · show p ∈ (poll (__seek_to_beginning__ s).1).2.1.already_seeked
        rw [(poll_preserve _).1]
        exact hmem
      · intro t hc
        rcases List.mem_append.mp hc with hc2 | hc2
        · rcases List.mem_append.mp hc2 with hc3 | hc3
          · cases hc3
          · rw [(seek_to_beginning_state s).2.2.2] at hc3
            exact seekPartitions_no_reseek _ _ _ _ h t hc3
        · exact hnoev _ t hc2
    · by_cases he : s.reset_position = "end"
      · rw [nextIter_entry_end s h0 he]
        have hmem : p ∈ (__seek_to_end__ s).1.already_seeked := by
          rw [(seek_to_end_state s).1]
          exact seekPartitions_mem_preserve _ _ _ _ h
        refine ⟨?_, ?_⟩
        · show p ∈ (poll (__seek_to_end__ s).1).2.1.already_seeked
          rw [(poll_preserve _).1]
          exact hmem
        · intro t hc
          rcases List.mem_append.mp hc with hc2 | hc2
          · rcases List.mem_append.mp hc2 with hc3 | hc3
            · cases hc3
            · rw [(seek_to_end_state s).2.2.2] at hc3
              exact seekPartitions_no_reseek _ _ _ _ h t hc3
          · exact hnoev _ t hc2
      · rw [nextIter_entry_other s h0 hb he]
        exact ⟨h, by simp⟩
  · rw [Bool.not_eq_true] at h0
    have hpmem : p ∈ (poll s).2.1.already_seeked := by
      rw [(poll_preserve s).1]; exact h
    by_cases h1 : (poll s).2.1.needs_seek
    · by_cases hb : s.reset_position = "beginning"
      · rw [nextIter_seek_beginning s h0 h1 hb]
        have hmem : p ∈ (__seek_to_beginning__ (poll s).2.1).1.already_seeked := by
          rw [(seek_to_beginning_state _).1]
          exact seekPartitions_mem_preserve _ _ _ _ hpmem
        refine ⟨?_, ?_⟩
        · show p ∈ (poll (__seek_to_beginning__ (poll s).2.1).1).2.1.already_seeked
          rw [(poll_preserve _).1]
          exact hmem
        · intro t hc
          rcases List.mem_append.mp hc with hc2 | hc2
          · rcases List.mem_append.mp hc2 with hc3 | hc3
            · exact hnoev _ t hc3
            · rw [(seek_to_beginning_state _).2.2.2] at hc3
              exact seekPartitions_no_reseek _ _ _ _ hpmem t hc3
          · exact hnoev _ t hc2
      · by_cases he : s.reset_position = "end"
        · rw [nextIter_seek_end s h0 h1 he]
          have hmem : p ∈ (__seek_to_end__ (poll s).2.1).1.already_seeked := by
            rw [(seek_to_end_state _).1]
            exact seekPartitions_mem_preserve _ _ _ _ hpmem
          refine ⟨?_, ?_⟩
          · show p ∈ (poll (__seek_to_end__ (poll s).2.1).1).2.1.already_seeked
            rw [(poll_preserve _).1]
            exact hmem
          · intro t hc
            rcases List.mem_append.mp hc with hc2 | hc2
            · rcases List.mem_append.mp hc2 with hc3 | hc3
              · exact hnoev _ t hc3
              · rw [(seek_to_end_state _).2.2.2] at hc3
                exact seekPartitions_no_reseek _ _ _ _ hpmem t hc3
            · exact hnoev _ t hc2
        · rw [nextIter_seek_other s h0 h1 hb he]
          exact ⟨hpmem, fun t => hnoev s t⟩
    · rw [Bool.not_eq_true] at h1
      rw [nextIter_noseek s h0 h1]
      exact ⟨hpmem, fun t => hnoev s t⟩

theorem next_no_reseek (fuel : Nat) (s : SourceState) (p : Partition) (t : SeekOffset)
    (h : p ∈ s.already_seeked) :
    Ev.seeked p t ∉ (next fuel s).2.2 := by
  induction fuel generalizing s with
  | zero => simp [next]
  | succ fuel ih =>
    have hni := nextIter_no_reseek s p h
    cases hN : (nextIter s).1 with
    | none =>
      simp only [next, hN]
      intro hmem
      rcases List.mem_append.mp hmem with hm | hm
      · exact hni.2 t hm
      · exact ih _ hni.1 hm
    | some m =>
      cases hE : m.error with
      | none =>
        simp only [next, hN, hE]
        by_cases hc : ((nextIter s).2.1.records_seen + 1) % (nextIter s).2.1.commit_interval = 0
        · simp only [if_pos hc]
          intro hmem
          rcases List.mem_append.mp hmem with hm | hm
          · exact hni.2 t hm
          · simp at hm
        · simp only [if_neg hc]
          exact hni.2 t
      | some ke =>
        cases ke with
        | unknownTopicOrPart =>
          simp only [next, hN, hE]
          exact hni.2 t
        | otherErr e =>
          simp only [next, hN, hE]
          exact hni.2 t

end KafkaSourceM

namespace KafkaSourceM

theorem poll_msg_head (s0 : SourceState) :
    (poll s0).1 = s0.script.head?.bind (fun pr2 => pr2.msg) := by
  cases h : s0.script <;> simp [poll, h]

end KafkaSourceM

/-- C1 counterexample: with the **default** offset-reset policy
`"earliest"` (which is neither of the literals `"beginning"`/`"end"` the
seek code tests for), a rebalance sets `needs_seek` during the first
poll, yet the next read performs **no seek and no re-poll**: the record
returned by that very first poll is surfaced directly (the trace is a
single `polled` event, no `seeked` event). -/
theorem C1_counterexample :
    (KafkaSourceM.poll
      ⟨"earliest", 10000, false, [], [], 0,
        [⟨[KafkaSourceM.RebalanceEvent.assign [0]], some ⟨0, 5, none⟩⟩]⟩).2.1.needs_seek
        = true ∧
    KafkaSourceM.next 2
      ⟨"earliest", 10000, false, [], [], 0,
        [⟨[KafkaSourceM.RebalanceEvent.assign [0]], some ⟨0, 5, none⟩⟩]⟩ =
      (KafkaSourceM.NextResult.record ⟨0, 5, none⟩,
       ⟨"earliest", 10000, false, [0], [], 1, []⟩,
       [KafkaSourceM.Ev.polled]) := by
  refine ⟨by decide, by decide⟩

/-- C1 (amended): when a rebalance delivered during the first poll of a
read sets `needs_seek` **and the configured reset policy is the literal
`"beginning"` or `"end"`**, the read seeks after that first poll and
before returning any record — the emitted trace is the first `polled`
event, then only seek/seek-commit events targeting the log start
(policy `"beginning"`) resp. log end (policy `"end"`), each for a
partition not in the already-seeked set — then re-polls, and the
candidate record is the one produced by the re-poll (the first poll's
record is discarded); the `needs_seek` flag is clear afterwards.  With
any other policy (including the default `"earliest"`) no seek is
performed (see the counterexample).  Moreover a partition in the
already-seeked set is never seeked again by any read, with any fuel —
the set is never cleared, so this holds with or without an intervening
revocation. -/
theorem C1_amended_thm :
    (∀ (s : KafkaSourceM.SourceState) (pr : KafkaSourceM.PollResult)
        (rest : List KafkaSourceM.PollResult) (target : KafkaSourceM.SeekOffset),
      s.needs_seek = false →
      s.script = pr :: rest →
      (∃ ps, KafkaSourceM.RebalanceEvent.assign ps ∈ pr.events) →
      ((s.reset_position = "beginning" ∧
          target = KafkaSourceM.SeekOffset.OFFSET_BEGINNING) ∨
       (s.reset_position = "end" ∧
          target = KafkaSourceM.SeekOffset.OFFSET_END)) →
      ∃ mid,
        (KafkaSourceM.nextIter s).2.2 =
          [KafkaSourceM.Ev.polled] ++ mid ++ [KafkaSourceM.Ev.polled] ∧
        (∀ e ∈ mid,
          (∃ p, e = KafkaSourceM.Ev.seeked p target ∧
            p ∉ s.already_seeked) ∨
          (∃ p, e = KafkaSourceM.Ev.committedSeek p)) ∧
        (KafkaSourceM.nextIter s).1 = rest.head?.bind (fun pr2 => pr2.msg) ∧
        (KafkaSourceM.nextIter s).2.1.needs_seek = false) ∧
    (∀ (fuel : Nat) (s : KafkaSourceM.SourceState) (p : KafkaSourceM.Partition)
        (t : KafkaSourceM.SeekOffset),
      p ∈ s.already_seeked →
      KafkaSourceM.Ev.seeked p t ∉ (KafkaSourceM.next fuel s).2.2) := by
  constructor
  · intro s pr rest target h0 hs hassign hpolicy
    have hpc := KafkaSourceM.poll_cons s pr rest hs
    have h1 : (KafkaSourceM.poll s).2.1.needs_seek = true := by
      rw [hpc.2.2]
      exact KafkaSourceM.foldl_applyEvent_needs_seek_of_assign _ _ hassign
    have hseeked : (KafkaSourceM.poll s).2.1.already_seeked = s.already_seeked :=
      (KafkaSourceM.poll_preserve s).1
    rcases hpolicy with ⟨hrp, rfl⟩ | ⟨hrp, rfl⟩
    · rw [KafkaSourceM.nextIter_seek_beginning s h0 h1 hrp]
      refine ⟨(KafkaSourceM.__seek_to_beginning__ (KafkaSourceM.poll s).2.1).2,
        ?_, ?_, ?_, rfl⟩
      · show (KafkaSourceM.poll s).2.2 ++ _ ++
            (KafkaSourceM.poll
              (KafkaSourceM.__seek_to_beginning__ (KafkaSourceM.poll s).2.1).1).2.2 = _
        rw [KafkaSourceM.poll_events, KafkaSourceM.poll_events]
      · intro e he
        rw [(KafkaSourceM.seek_to_beginning_state _).2.2.2] at he
        rcases KafkaSourceM.seekPartitions_events_shape _ _ _ e he with ⟨p, rfl, hp⟩ | hr
        · rw [hseeked] at hp
          exact Or.inl ⟨p, rfl, hp⟩
        · exact Or.inr hr
      · show (KafkaSourceM.poll
            (KafkaSourceM.__seek_to_beginning__ (KafkaSourceM.poll s).2.1).1).1 = _
        rw [KafkaSourceM.poll_msg_head]
        have hscript : (KafkaSourceM.__seek_to_beginning__
            (KafkaSourceM.poll s).2.1).1.script = rest := by
          rw [(KafkaSourceM.seek_to_beginning_state _).2.2.1]
          exact hpc.2.1
        rw [hscript]
    · rw [KafkaSourceM.nextIter_seek_end s h0 h1 hrp]
      refine ⟨(KafkaSourceM.__seek_to_end__ (KafkaSourceM.poll s).2.1).2,
        ?_, ?_, ?_, rfl⟩
      · show (KafkaSourceM.poll s).2.2 ++ _ ++
            (KafkaSourceM.poll
              (KafkaSourceM.__seek_to_end__ (KafkaSourceM.poll s).2.1).1).2.2 = _
        rw [KafkaSourceM.poll_events, KafkaSourceM.poll_events]
      · intro e he
        rw [(KafkaSourceM.seek_to_end_state _).2.2.2] at he
        rcases KafkaSourceM.seekPartitions_events_shape _ _ _ e he with ⟨p, rfl, hp⟩ | hr
        · rw [hseeked] at hp
          exact Or.inl ⟨p, rfl, hp⟩
        · exact Or.inr hr
      · show (KafkaSourceM.poll
            (KafkaSourceM.__seek_to_end__ (KafkaSourceM.poll s).2.1).1).1 = _
        rw [KafkaSourceM.poll_msg_head]
        have hscript : (KafkaSourceM.__seek_to_end__
            (KafkaSourceM.poll s).2.1).1.script = rest := by
          rw [(KafkaSourceM.seek_to_end_state _).2.2.1]
          exact hpc.2.1
        rw [hscript]
  · intro fuel s p t h
    exact KafkaSourceM.next_no_reseek fuel s p t h

/-- C1 witness: the first conjunct applied to a concrete rebalance that
assigns partitions 0 and 1 — once with policy `"beginning"` and once
with policy `"end"` — and the second conjunct applied to a concrete
already-seeked partition. -/
theorem C1_witness :
    (∃ ps, KafkaSourceM.RebalanceEvent.assign ps ∈
      [KafkaSourceM.RebalanceEvent.assign [0, 1]]) ∧
    (∃ mid,
      (KafkaSourceM.nextIter
        ⟨"beginning", 10000, false, [], [], 0,
          [⟨[KafkaSourceM.RebalanceEvent.assign [0, 1]], some ⟨0, 5, none⟩⟩,
           ⟨[], some ⟨0, 0, none⟩⟩]⟩).2.2 =
        [KafkaSourceM.Ev.polled] ++ mid ++ [KafkaSourceM.Ev.polled] ∧
      (∀ e ∈ mid,
        (∃ p, e = KafkaSourceM.Ev.seeked p KafkaSourceM.SeekOffset.OFFSET_BEGINNING ∧
          p ∉ ([] : List KafkaSourceM.Partition)) ∨
        (∃ p, e = KafkaSourceM.Ev.committedSeek p)) ∧
      (KafkaSourceM.nextIter
        ⟨"beginning", 10000, false, [], [], 0,
          [⟨[KafkaSourceM.RebalanceEvent.assign [0, 1]], some ⟨0, 5, none⟩⟩,
           ⟨[], some ⟨0, 0, none⟩⟩]⟩).1 =
        ([⟨[], some ⟨0, 0, none⟩⟩] :
          List KafkaSourceM.PollResult).head?.bind (fun pr2 => pr2.msg) ∧
      (KafkaSourceM.nextIter
        ⟨"beginning", 10000, false, [], [], 0,
          [⟨[KafkaSourceM.RebalanceEvent.assign [0, 1]], some ⟨0, 5, none⟩⟩,
           ⟨[], some ⟨0, 0, none⟩⟩]⟩).2.1.needs_seek = false) ∧
    (∃ mid,
      (KafkaSourceM.nextIter
        ⟨"end", 10000, false, [], [], 0,
          [⟨[KafkaSourceM.RebalanceEvent.assign [0, 1]], some ⟨0, 5, none⟩⟩,
           ⟨[], some ⟨0, 9, none⟩⟩]⟩).2.2 =
        [KafkaSourceM.Ev.polled] ++ mid ++ [KafkaSourceM.Ev.polled] ∧
      (∀ e ∈ mid,
        (∃ p, e = KafkaSourceM.Ev.seeked p KafkaSourceM.SeekOffset.OFFSET_END ∧
          p ∉ ([] : List KafkaSourceM.Partition)) ∨
        (∃ p, e = KafkaSourceM.Ev.committedSeek p)) ∧
      (KafkaSourceM.nextIter
        ⟨"end", 10000, false, [], [], 0,
          [⟨[KafkaSourceM.RebalanceEvent.assign [0, 1]], some ⟨0, 5, none⟩⟩,
           ⟨[], some ⟨0, 9, none⟩⟩]⟩).1 =
        ([⟨[], some ⟨0, 9, none⟩⟩] :
          List KafkaSourceM.PollResult).head?.bind (fun pr2 => pr2.msg) ∧
      (KafkaSourceM.nextIter
        ⟨"end", 10000, false, [], [], 0,
          [⟨[KafkaSourceM.RebalanceEvent.assign [0, 1]], some ⟨0, 5, none⟩⟩,
           ⟨[], some ⟨0, 9, none⟩⟩]⟩).2.1.needs_seek = false) ∧
    KafkaSourceM.Ev.seeked 7 KafkaSourceM.SeekOffset.OFFSET_BEGINNING ∉
      (KafkaSourceM.next 3
        ⟨"beginning", 10000, false, [7], [7], 0,
          [⟨[], some ⟨7, 4, none⟩⟩]⟩).2.2 :=
  ⟨⟨[0, 1], by decide⟩,
   C1_amended_thm.1
     ⟨"beginning", 10000, false, [], [], 0,
       [⟨[KafkaSourceM.RebalanceEvent.assign [0, 1]], some ⟨0, 5, none⟩⟩,
        ⟨[], some ⟨0, 0, none⟩⟩]⟩
     ⟨[KafkaSourceM.RebalanceEvent.assign [0, 1]], some ⟨0, 5, none⟩⟩
     [⟨[], some ⟨0, 0, none⟩⟩] KafkaSourceM.SeekOffset.OFFSET_BEGINNING
     (by decide) (by rfl) ⟨[0, 1], by decide⟩ (Or.inl ⟨by rfl, rfl⟩),
   C1_amended_thm.1
     ⟨"end", 10000, false, [], [], 0,
       [⟨[KafkaSourceM.RebalanceEvent.assign [0, 1]], some ⟨0, 5, none⟩⟩,
        ⟨[], some ⟨0, 9, none⟩⟩]⟩
     ⟨[KafkaSourceM.RebalanceEvent.assign [0, 1]], some ⟨0, 5, none⟩⟩
     [⟨[], some ⟨0, 9, none⟩⟩] KafkaSourceM.SeekOffset.OFFSET_END
     (by decide) (by rfl) ⟨[0, 1], by decide⟩ (Or.inr ⟨by rfl, rfl⟩),
   C1_amended_thm.2 3
     ⟨"beginning", 10000, false, [7], [7], 0, [⟨[], some ⟨7, 4, none⟩⟩]⟩
     7 KafkaSourceM.SeekOffset.OFFSET_BEGINNING (by decide)⟩
